import Mathlib

/-!
Verification development for the pptxtojson-demo converter.

The JavaScript source is shallowly embedded:
* the loosely-typed parsed-XML trees the code traverses become the dynamic
  value type `JVal` (`undefined`, strings, objects as association lists in
  insertion order, arrays);
* JS numbers are modelled as exact rationals (`ℚ`); the arithmetic the code
  performs is expressed through `mkRat`-based operations `qmul`, `qdiv`,
  `qadd`, `qsub` (provably equal to `*`, `/`, `+`, `-` on `ℚ`) so that every
  concrete run evaluates inside the kernel;
* fallible steps (property access on `undefined`, reading a missing ZIP
  entry) run in `Except JsError`, mirroring thrown `TypeError`s;
* `async`/`await` has no observable concurrency here (per-slide processing is
  sequential), so awaited calls are embedded as ordinary calls.

Functions keep the names of their JavaScript counterparts.  Collaborator
modules that are not part of `src/` (position.js, schemeColor.js, color.js,
constants.js, the text/border/shadow helpers, the `tinycolor2` library) are
modelled from the specification; each such definition carries a doc comment
saying so.
-/

set_option maxRecDepth 8000

namespace Pptx

/-- Dynamic value of the parsed-XML JavaScript tree: `undefined`, a string,
an object (association list of fields in insertion order — repeated XML
children have already been collapsed into arrays by the XML reader), or an
array. -/
inductive JVal where
  | undef : JVal
  | s : String → JVal
  | o : List (String × JVal) → JVal
  | a : List JVal → JVal

/-- JS property access `node[key]` on an object: first field with the given
name, `undefined` otherwise.  On non-objects the properties read by this code
do not exist, so the result is `undefined` as well (access on `undefined`
itself would throw; the throwing form is `jgetE` below). -/
def jget (v : JVal) (k : String) : JVal :=
  match v with
  | .o fields =>
    match fields.find? (fun p => p.1 == k) with
    | some p => p.2
    | none => .undef
  | _ => (.undef)

/-- JS truthiness of the values that occur in the tree: `undefined` and the
empty string are falsy, every object, array and non-empty string is truthy. -/
def jtruthy : JVal → Bool
  | .undef => false
  | .s str => str != ""
  | .o _ => true
  | .a _ => true

/-- Error raised by an embedded JavaScript run. -/
inductive JsError where
  | typeError : JsError
  | fileError : JsError
deriving DecidableEq

/-- Throwing JS property access: `node[key]` throws a `TypeError` when `node`
is `undefined`. -/
def jgetE (v : JVal) (k : String) : Except JsError JVal :=
  match v with
  | .undef => .error .typeError
  | _ => .ok (jget v k)

/-- getTextByPathList from src/src/utils.js: walk successive keys, returning
the first falsy value met (which `jget` makes `undefined` for a missing
branch) or the final node.  The `path`-is-not-an-array throw cannot occur in
the embedding because `path` is typed as a list. -/
def getTextByPathList (node : JVal) (path : List String) : JVal :=
  match path with
  | [] => node
  | k :: rest =>
    if jtruthy node then getTextByPathList (jget node k) rest else node

/-- String a JS value coerces to when concatenated (only the cases this code
can produce: `undefined` prints "undefined", arrays and objects never reach a
concatenation in the modelled paths). -/
def jcoerceString : JVal → String
  | .undef => "undefined"
  | .s str => str
  | .o _ => "[object Object]"
  | .a _ => ""

/-- Decimal digit character test (the `[0-9]` range), kept in terms of
`Char.toNat` so proofs stay at the `ℕ` level. -/
def isDigitChar (c : Char) : Bool := 48 ≤ c.toNat && c.toNat ≤ 57

/-- Value of a list of decimal digit characters. -/
def digitsVal (cs : List Char) : ℕ :=
  cs.foldl (fun acc c => 10 * acc + (c.toNat - 48)) 0

/-- JS `parseInt` on the strings this code feeds it: the longest prefix of
decimal digits, `NaN` (here `none`) when there is none.  Sign, whitespace and
radix prefixes never occur in those strings. -/
def jsParseInt (str : String) : Option ℕ :=
  let ds := str.data.takeWhile isDigitChar
  if ds.isEmpty then none else some (digitsVal ds)

/-- `parseInt` applied to a JS value: `parseInt(undefined)` is `NaN`. -/
def jsParseIntJ : JVal → Option ℕ
  | .s str => jsParseInt str
  | _ => none

/-- JS `Number` coercion on the attribute strings this code divides or
multiplies: `""` is 0, an all-digit string is its value, anything else met
here would be `NaN` (`none`).  Fractional attribute literals do not occur in
the claims' inputs. -/
def jsToNumberNat (str : String) : Option ℕ :=
  if str = "" then some 0
  else if str.data.all isDigitChar then some (digitsVal str.data)
  else none

/-- Decimal digits of `n`, most significant first; the fuel argument is an
upper bound on the digit count (`n` itself always suffices). -/
def decRepAux : ℕ → ℕ → List ℕ
  | 0, _ => []
  | f + 1, n => if n < 10 then [n] else decRepAux f (n / 10) ++ [n % 10]

/-- Character of a decimal digit. -/
def digitChar (d : ℕ) : Char := Char.ofNat (48 + d)

/-- Decimal string of a natural number, as JS prints integral doubles. -/
def decString (n : ℕ) : String := ⟨(decRepAux (n + 1) n).map digitChar⟩

/-- The up-to-three fractional digits JS prints for `r / 1000` with
`0 < r < 1000`: zero-padded to three digits, trailing zeros stripped
(shortest round-trip printing of such a double is the decimal itself). -/
def fracDigits (r : ℕ) : List ℕ :=
  (([r / 100, r / 10 % 10, r % 10]).reverse.dropWhile (· == 0)).reverse

/-- String JS prints for the number `pos / 1000` (`pos` a natural number):
integer part, then a point and the non-zero fraction digits when `pos` is not
a multiple of 1000. -/
def posNumberString (pos : ℕ) : String :=
  if pos % 1000 = 0 then decString (pos / 1000)
  else decString (pos / 1000) ++ "." ++ ⟨(fracDigits (pos % 1000)).map digitChar⟩

/-- Lower-case hexadecimal digit character, as JS `toString(16)` prints. -/
def hexDigitChar (d : ℕ) : Char :=
  if d < 10 then Char.ofNat (48 + d) else Char.ofNat (87 + d)

/-- Hexadecimal digits of `n`, most significant first (fuel as in
`decRepAux`). -/
def hexRepAux : ℕ → ℕ → List Char
  | 0, _ => []
  | f + 1, n =>
    if n < 16 then [hexDigitChar n] else hexRepAux f (n / 16) ++ [hexDigitChar (n % 16)]

/-- JS `n.toString(16)` for a natural number. -/
def natToHexString (n : ℕ) : String := ⟨hexRepAux (n + 1) n⟩

/-- toHex from src/src/utils.js on a natural number: `n.toString(16)`
left-padded with `'0'` while shorter than two characters (one pad at most,
since `toString` emits at least one digit). -/
def toHex (n : ℕ) : String :=
  let hex := natToHexString n
  if hex.length < 2 then "0" ++ hex else hex

/-- Hexadecimal digits (at most `fuel`) of the fractional part of a
nonnegative rational, as JS prints the fraction of a dyadic double. -/
def hexFracAux : ℕ → ℚ → List Char
  | 0, _ => []
  | f + 1, q =>
    if q = 0 then []
    else
      let q16 := mkRat (q.num * 16) q.den
      let d := (Rat.floor q16).toNat
      hexDigitChar d :: hexFracAux f (mkRat (q16.num - d * q16.den) q16.den)

/-- toHex from src/src/utils.js applied to a general JS number, as the
`a:scrgbClr` branch of getSolidFill does: `NaN.toString(16)` is `"NaN"`; an
integral value prints as in `toHex`; a fractional value prints its integer
part, a point, and hexadecimal fraction digits (JS rounds a double to at most
13 of them; the inputs the claims exercise are integral, so the bounded
expansion is exact there). -/
def toHexNum (q : Option ℚ) : String :=
  match q with
  | none => "NaN"
  | some q =>
    if q < 0 then "-" ++ toHex (-q.num).toNat
    else if q.den = 1 then toHex q.num.toNat
    else
      let intPart := natToHexString (Rat.floor q).toNat
      let frac : String := ⟨hexFracAux 13 (mkRat (q.num - Rat.floor q * q.den) q.den)⟩
      intPart ++ "." ++ frac

/-- Kernel-reducible product of two rationals (`Rat.mul` itself does not
reduce in the kernel); provably equal to `*`. -/
def qmul (x y : ℚ) : ℚ := mkRat (x.num * y.num) (x.den * y.den)

/-- Kernel-reducible quotient; provably equal to `/` (in particular both give
0 for a zero divisor, where JS would give an infinity — no claim divides by
zero). -/
def qdiv (x y : ℚ) : ℚ :=
  mkRat (x.num * y.den * (if y.num < 0 then -1 else 1)) (x.den * y.num.natAbs)

/-- Kernel-reducible sum; provably equal to `+`. -/
def qadd (x y : ℚ) : ℚ := mkRat (x.num * y.den + y.num * x.den) (x.den * y.den)

/-- Kernel-reducible difference; provably equal to `-`. -/
def qsub (x y : ℚ) : ℚ := mkRat (x.num * y.den - y.num * x.den) (x.den * y.den)

theorem mkRat_eq_cast_div (n : ℤ) (d : ℕ) : mkRat n d = (n : ℚ) / (d : ℚ) := by
  rw [Rat.mkRat_eq_divInt, Rat.divInt_eq_div]
  push_cast
  rfl

theorem qmul_eq_mul (x y : ℚ) : qmul x y = x * y := by
  rw [qmul, mkRat_eq_cast_div]
  conv_rhs => rw [← Rat.num_div_den x, ← Rat.num_div_den y, div_mul_div_comm]
  push_cast
  rfl

theorem qadd_eq_add (x y : ℚ) : qadd x y = x + y := by
  have hx : (x.den : ℚ) ≠ 0 := Nat.cast_ne_zero.mpr x.den_nz
  have hy : (y.den : ℚ) ≠ 0 := Nat.cast_ne_zero.mpr y.den_nz
  rw [qadd, mkRat_eq_cast_div]
  conv_rhs => rw [← Rat.num_div_den x, ← Rat.num_div_den y, div_add_div _ _ hx hy]
  push_cast
  ring_nf

theorem qsub_eq_sub (x y : ℚ) : qsub x y = x - y := by
  have hx : (x.den : ℚ) ≠ 0 := Nat.cast_ne_zero.mpr x.den_nz
  have hy : (y.den : ℚ) ≠ 0 := Nat.cast_ne_zero.mpr y.den_nz
  rw [qsub, mkRat_eq_cast_div]
  conv_rhs => rw [← Rat.num_div_den x, ← Rat.num_div_den y, div_sub_div _ _ hx hy]
  push_cast
  ring_nf

theorem qdiv_eq_div (x y : ℚ) : qdiv x y = x / y := by
  by_cases h0 : y = 0
  · subst h0
    rw [qdiv, mkRat_eq_cast_div]
    simp
  · have hxd : (x.den : ℚ) ≠ 0 := Nat.cast_ne_zero.mpr x.den_nz
    have hyd : (y.den : ℚ) ≠ 0 := Nat.cast_ne_zero.mpr y.den_nz
    have hyn : (y.num : ℚ) ≠ 0 := by
      exact_mod_cast Rat.num_ne_zero.mpr h0
    have key : x / y = ((x.num : ℚ) * (y.den : ℚ)) / ((x.den : ℚ) * (y.num : ℚ)) := by
      conv_lhs => rw [← Rat.num_div_den x, ← Rat.num_div_den y]
      field_simp
    rw [qdiv, mkRat_eq_cast_div, key]
    rcases le_or_lt 0 y.num with hpos | hneg
    · have habs : ((y.num.natAbs : ℕ) : ℚ) = (y.num : ℚ) := by
        rw [Int.cast_natAbs]
        exact_mod_cast congrArg (fun z : ℤ => (z : ℚ)) (abs_of_nonneg hpos)
      rw [if_neg (not_lt.mpr hpos)]
      push_cast
      rw [habs, mul_one]
    · have habs : ((y.num.natAbs : ℕ) : ℚ) = -(y.num : ℚ) := by
        rw [Int.cast_natAbs]
        exact_mod_cast congrArg (fun z : ℤ => (z : ℚ)) (abs_of_neg hneg)
      rw [if_pos hneg]
      push_cast
      rw [habs, mul_neg_one, mul_neg, neg_div_neg_eq]

/-- JS `Math.round`: floor of the argument plus one half (ties round up). -/
def jsRound (q : ℚ) : ℤ := Rat.floor (qadd q (mkRat 1 2))

/-- JS `toLowerCase` on the ASCII extension strings this code lowers. -/
def jsToLower (str : String) : String := ⟨str.data.map Char.toLower⟩

/-- extractFileExtension from src/src/utils.js: the
`substr((~-lastIndexOf('.') >>> 0) + 2)` arithmetic yields the part after the
last `'.'`, and the empty string when the name has no `'.'`. -/
def extractFileExtension (filename : String) : String :=
  if filename.data.contains '.' then
    ⟨(filename.data.reverse.takeWhile (fun c => c != '.')).reverse⟩
  else ""

/-- Part of a path after its last `'.'` as `split('.').pop()` computes it in
getPicFill — unlike `extractFileExtension`, a dot-free string pops back
whole. -/
def lastSegmentAfterDot (str : String) : String :=
  if str.data.contains '.' then
    ⟨(str.data.reverse.takeWhile (fun c => c != '.')).reverse⟩
  else str

/-- angleToDegrees from src/src/utils.js: falsy input gives 0, otherwise
`Math.round(angle / 60000)` with the attribute string coerced to a number.  A
non-numeric truthy string would give `NaN`; that corner is modelled as 0 and
exercised by no claim. -/
def angleToDegrees (angle : JVal) : ℤ :=
  if jtruthy angle then
    match angle with
    | .s str =>
      match jsToNumberNat str with
      | some n => jsRound (qdiv (n : ℚ) 60000)
      | none => 0
    | _ => 0
  else 0

/-- getMimeType from src/src/utils.js: the closed extension switch. -/
def getMimeType (imgFileExt : String) : String :=
  let e := jsToLower imgFileExt
  if e = "jpg" ∨ e = "jpeg" then "image/jpeg"
  else if e = "png" then "image/png"
  else if e = "gif" then "image/gif"
  else if e = "emf" then "image/x-emf"
  else if e = "wmf" then "image/x-wmf"
  else if e = "svg" then "image/svg+xml"
  else if e = "mp4" then "video/mp4"
  else if e = "webm" then "video/webm"
  else if e = "ogg" then "video/ogg"
  else if e = "avi" then "video/avi"
  else if e = "mpg" then "video/mpg"
  else if e = "wmv" then "video/wmv"
  else if e = "mp3" then "audio/mpeg"
  else if e = "wav" then "audio/wav"
  else if e = "tif" ∨ e = "tiff" then "image/tiff"
  else ""

/-- escapeHtml from src/src/utils.js: replace the five HTML special
characters by their entities. -/
def escapeHtml (text : String) : String :=
  ⟨(text.data.map (fun c =>
      if c = '&' then "&amp;".data
      else if c = '<' then "&lt;".data
      else if c = '>' then "&gt;".data
      else if c = Char.ofNat 34 then "&quot;".data
      else if c = Char.ofNat 39 then "&#039;".data
      else [c])).flatten⟩

/-- isVideoLink from src/src/utils.js tests a URL regular expression.  The
full pattern (closed TLD set, userinfo, ports, path charset) is not
reproduced; the embedding keeps the scheme prefix every accepted URL must
carry, and no claim depends on the finer structure. -/
def isVideoLink (vdoFile : String) : Bool :=
  List.isPrefixOf "http://".data vdoFile.data ||
    List.isPrefixOf "https://".data vdoFile.data ||
    List.isPrefixOf "ftp://".data vdoFile.data

/-- The Base64 alphabet of src/src/utils.js. -/
def encodings : List Char :=
  "ABCDEFGHIJKLMNOPQRSTUVWXYZabcdefghijklmnopqrstuvwxyz0123456789+/".data

/-- Character the JS code writes for sextet index `i` (`encodings[i]`; every
index the code produces is < 64, so the default is never reached). -/
def encChar (i : ℕ) : Char := encodings.getD i 'A'

/-- base64ArrayBuffer from src/src/utils.js.  The `for` loop over complete
3-byte groups followed by the 1- or 2-byte remainder block becomes one
recursion consuming three bytes at a time; the bit arithmetic (`<<`, `|`, `&`,
`>>` with the source's mask constants) is kept verbatim on `ℕ`, which agrees
with JS 32-bit semantics for these byte-bounded values. -/
def base64ArrayBuffer : List (Fin 256) → String
  | x :: y :: z :: rest =>
    let chunk := (x.val <<< 16) ||| (y.val <<< 8) ||| z.val
    let a := (chunk &&& 16515072) >>> 18
    let b := (chunk &&& 258048) >>> 12
    let c := (chunk &&& 4032) >>> 6
    let d := chunk &&& 63
    ⟨[encChar a, encChar b, encChar c, encChar d]⟩ ++ base64ArrayBuffer rest
  | [x] =>
    let chunk := x.val
    let a := (chunk &&& 252) >>> 2
    let b := (chunk &&& 3) <<< 4
    ⟨[encChar a, encChar b]⟩ ++ "=="
  | [x, y] =>
    let chunk := (x.val <<< 8) ||| y.val
    let a := (chunk &&& 64512) >>> 10
    let b := (chunk &&& 1008) >>> 4
    let c := (chunk &&& 15) <<< 2
    ⟨[encChar a, encChar b, encChar c]⟩ ++ "="
  | [] => ""

/-- Value of a hexadecimal digit character (either case); non-hex characters
do not occur where this is used. -/
def hexDigitVal (c : Char) : ℕ :=
  if c.isDigit then c.toNat - 48
  else if 'a' ≤ c ∧ c ≤ 'f' then c.toNat - 87
  else if 'A' ≤ c ∧ c ≤ 'F' then c.toNat - 55
  else 0

/-- Modelled from the tinycolor2 library (an npm dependency, not part of this
repository): parsing of the `#rrggbb` / `rrggbb` strings this code feeds it
into 0–255 channels.  Other string shapes are invalid colours and come out
black; no claim exercises them. -/
def rgbOfHexString (str : String) : ℕ × ℕ × ℕ :=
  let ds := if str.data.head? = some '#' then str.data.tail else str.data
  match ds with
  | [r1, r2, g1, g2, b1, b2] =>
    (16 * hexDigitVal r1 + hexDigitVal r2,
     16 * hexDigitVal g1 + hexDigitVal g2,
     16 * hexDigitVal b1 + hexDigitVal b2)
  | _ => (0, 0, 0)

/-- Larger of two rationals (`Math.max`), kept kernel-reducible. -/
def qmax (x y : ℚ) : ℚ := if x < y then y else x

/-- Smaller of two rationals (`Math.min`), kept kernel-reducible. -/
def qmin (x y : ℚ) : ℚ := if y < x then y else x

/-- Clamp into the unit interval, as tinycolor bounds saturation and
lightness. -/
def clamp01 (q : ℚ) : ℚ := if q < 0 then 0 else if 1 < q then 1 else q

/-- Modelled from the tinycolor2 library: RGB→HSL with hue in degrees 0–360
and saturation/lightness in 0–1 (the standard conversion). -/
def rgbToHsl (r g b : ℕ) : ℚ × ℚ × ℚ :=
  let r' : ℚ := qdiv (r : ℚ) 255
  let g' : ℚ := qdiv (g : ℚ) 255
  let b' : ℚ := qdiv (b : ℚ) 255
  let mx := qmax r' (qmax g' b')
  let mn := qmin r' (qmin g' b')
  let l := qdiv (qadd mx mn) 2
  if mx = mn then (0, 0, l)
  else
    let d := qsub mx mn
    let s := if mkRat 1 2 < l then qdiv d (qsub 2 (qadd mx mn)) else qdiv d (qadd mx mn)
    let h :=
      if mx = r' then qadd (qdiv (qsub g' b') d) (if g' < b' then 6 else 0)
      else if mx = g' then qadd (qdiv (qsub b' r') d) 2
      else qadd (qdiv (qsub r' g') d) 4
    (qmul h 60, s, l)

/-- Modelled from the tinycolor2 library: the `hue2rgb` helper of HSL→RGB. -/
def hue2rgb (p q t0 : ℚ) : ℚ :=
  let t := if t0 < 0 then qadd t0 1 else if 1 < t0 then qsub t0 1 else t0
  if t < mkRat 1 6 then qadd p (qmul (qsub q p) (qmul 6 t))
  else if t < mkRat 1 2 then q
  else if t < mkRat 2 3 then qadd p (qmul (qsub q p) (qmul (qsub (mkRat 2 3) t) 6))
  else p

/-- Modelled from the tinycolor2 library: HSL→RGB with hue in degrees,
channels rounded to 0–255 integers as `toHexString` emits them. -/
def hslToRgb255 (h s l : ℚ) : ℕ × ℕ × ℕ :=
  let hn := qdiv h 360
  if s = 0 then
    let v := (jsRound (qmul l 255)).toNat
    (v, v, v)
  else
    let q := if l < mkRat 1 2 then qmul l (qadd 1 s) else qsub (qadd l s) (qmul l s)
    let p := qsub (qmul 2 l) q
    ((jsRound (qmul (hue2rgb p q (qadd hn (mkRat 1 3))) 255)).toNat,
     (jsRound (qmul (hue2rgb p q hn) 255)).toNat,
     (jsRound (qmul (hue2rgb p q (qsub hn (mkRat 1 3))) 255)).toNat)

/-- Two lower-case hexadecimal digits of a byte, as tinycolor prints
channels. -/
def hex2 (n : ℕ) : String := ⟨[hexDigitChar (n / 16 % 16), hexDigitChar (n % 16)]⟩

/-- Modelled from the tinycolor2 library: the
`tinycolor(c).toHsl()` → adjust lightness → `tinycolor({h,s,l,a}).toHexString()`
round-trip performed by getShapeFill.  `toHexString` prints lower-case
`#rrggbb`. -/
def tinycolorLumRoundTrip (color : String) (lumMod lumOff : ℚ) : String :=
  let rgb := rgbOfHexString color
  let hsl := rgbToHsl rgb.1 rgb.2.1 rgb.2.2
  let lum := clamp01 (qadd (qmul hsl.2.2 lumMod) lumOff)
  let rgb' := hslToRgb255 hsl.1 hsl.2.1 lum
  "#" ++ hex2 rgb'.1 ++ hex2 rgb'.2.1 ++ hex2 rgb'.2.2

/-- Modelled from the tinycolor2 library:
`tinycolor(color).setAlpha(a).toHex8()` — lower-case `rrggbbaa` without `#`,
the alpha byte being `Math.round(255·a)` after clamping `a` into [0,1]. -/
def tinycolorSetAlphaHex8 (color : String) (alpha : ℚ) : String :=
  let rgb := rgbOfHexString color
  hex2 rgb.1 ++ hex2 rgb.2.1 ++ hex2 rgb.2.2 ++
    hex2 (jsRound (qmul (clamp01 alpha) 255)).toNat

/-- Reduce an angle into [0, 360) as the hue modulation needs. -/
def wrap360 (q : ℚ) : ℚ := qsub q (qmul 360 ((Rat.floor (qdiv q 360) : ℤ) : ℚ))

/-- Modelled from the spec: color.js (not under src/) hosts the modulation
helpers of §4.2 step 3.  Each converts the hex string to HSL, adjusts one
channel, clamps saturation and lightness to [0,1], and re-encodes, carrying
the trailing alpha byte through when `isAlpha`.  The emitted hex has no `#`
(getSolidFill prepends it at the end). -/
def applyHslAdjust (color : String) (isAlpha : Bool)
    (f : ℚ × ℚ × ℚ → ℚ × ℚ × ℚ) : String :=
  let body : String := if isAlpha then ⟨color.data.take 6⟩ else color
  let alphaSfx : String := if isAlpha then ⟨color.data.drop 6⟩ else ""
  let rgb := rgbOfHexString body
  let hsl := rgbToHsl rgb.1 rgb.2.1 rgb.2.2
  let adj := f hsl
  let rgb' := hslToRgb255 adj.1 (clamp01 adj.2.1) (clamp01 adj.2.2)
  hex2 rgb'.1 ++ hex2 rgb'.2.1 ++ hex2 rgb'.2.2 ++ alphaSfx

/-- Modelled from the spec: hue modulation multiplies H modulo 360. -/
def applyHueMod (color : String) (factor : ℚ) (isAlpha : Bool) : String :=
  applyHslAdjust color isAlpha (fun x => (wrap360 (qmul x.1 factor), x.2.1, x.2.2))

/-- Modelled from the spec: lumMod multiplies L. -/
def applyLumMod (color : String) (factor : ℚ) (isAlpha : Bool) : String :=
  applyHslAdjust color isAlpha (fun x => (x.1, x.2.1, qmul x.2.2 factor))

/-- Modelled from the spec: lumOff adds to L. -/
def applyLumOff (color : String) (factor : ℚ) (isAlpha : Bool) : String :=
  applyHslAdjust color isAlpha (fun x => (x.1, x.2.1, qadd x.2.2 factor))

/-- Modelled from the spec: satMod multiplies S. -/
def applySatMod (color : String) (factor : ℚ) (isAlpha : Bool) : String :=
  applyHslAdjust color isAlpha (fun x => (x.1, qmul x.2.1 factor, x.2.2))

/-- Modelled from the spec: shade scales L by the factor. -/
def applyShade (color : String) (factor : ℚ) (isAlpha : Bool) : String :=
  applyHslAdjust color isAlpha (fun x => (x.1, x.2.1, qmul x.2.2 factor))

/-- Modelled from the spec: tint moves L towards 1 by the factor. -/
def applyTint (color : String) (factor : ℚ) (isAlpha : Bool) : String :=
  applyHslAdjust color isAlpha
    (fun x => (x.1, x.2.1, qadd x.2.2 (qmul (qsub 1 x.2.2) factor)))

/-- Modelled from the spec: color.js `hslToRgb` used by the `a:hslClr` branch
— the standard HSL→RGB with 0–255 integer output channels. -/
def hslToRgb (h s l : ℚ) : ℕ × ℕ × ℕ := hslToRgb255 h s l

/-- The per-slide `warpObj` of processSingleSlide.  Parsed XML parts and the
relationship/lookup tables are carried as `JVal` trees; the ZIP is the map of
entry names to byte contents. -/
structure Warp where
  slideContent : JVal
  slideLayoutContent : JVal
  slideMasterContent : JVal
  themeContent : JVal
  slideResObj : JVal
  layoutResObj : JVal
  masterResObj : JVal
  themeResObj : JVal
  diagramResObj : JVal
  slideLayoutTables : JVal
  slideMasterTables : JVal
  tableStyles : JVal
  slideMasterTextStyles : JVal
  defaultTextStyle : JVal
  digramFileContent : JVal
  zip : List (String × List (Fin 256))

/-- A warp whose parts are all absent; concrete inputs override fields. -/
def emptyWarp : Warp :=
  ⟨.undef, .undef, .undef, .undef, .undef, .undef, .undef, .undef, .undef,
   .undef, .undef, .undef, .undef, .undef, .undef, []⟩

/-- Modelled from the spec: schemeColor.js is not under src/.  Per §4.2, the
scheme name (after its `a:` prefix) is followed through the colour map once,
a `phClr` reference returns the inherited placeholder colour verbatim, and
otherwise the theme's `clrScheme` slot supplies `srgbClr.val` or
`sysClr.lastClr`.  The raw hex string carries no `#`; an unresolved slot is
`undefined`. -/
def getSchemeColorFromTheme (schemeClr : String) (warpObj : Warp)
    (clrMap : JVal) (phClr : Option String) : JVal :=
  let name : String := ⟨schemeClr.data.drop 2⟩
  let slot :=
    match jget clrMap name with
    | .s t => t
    | _ => name
  if slot = "phClr" ∧ (phClr.getD "") ≠ "" then .s (phClr.getD "")
  else
    let node := getTextByPathList warpObj.themeContent
      ["a:theme", "a:themeElements", "a:clrScheme", "a:" ++ slot]
    let v := getTextByPathList node ["a:srgbClr", "attrs", "val"]
    if jtruthy v then v else getTextByPathList node ["a:sysClr", "attrs", "lastClr"]

/-- Modelled from the spec: color.js `getColorName2Hex`, the OOXML
preset-colour-name table (an excerpt — no claim exercises preset colours;
unknown names resolve to `undefined`). -/
def getColorName2Hex (name : String) : JVal :=
  if name = "red" then .s "ff0000"
  else if name = "green" then .s "008000"
  else if name = "blue" then .s "0000ff"
  else if name = "black" then .s "000000"
  else if name = "white" then .s "ffffff"
  else if name = "yellow" then .s "ffff00"
  else (.undef)

/-- One channel of the `a:scrgbClr` branch of getSolidFill:
`toHex(255 * (Number(v) / 100))`, the value having any `'%'` suffix split
off first.  A missing attribute would make the JS throw on `.indexOf`; the
claims always supply the three channels, so that corner is modelled as the
`NaN` print. -/
def scrgbChannelString (raw : JVal) : String :=
  match raw with
  | .s str =>
    let body : String := ⟨str.data.takeWhile (fun c => c != '%')⟩
    toHexNum ((jsToNumberNat body).map (fun n => qmul 255 (qdiv (n : ℚ) 100)))
  | _ => toHexNum none

/-- getFillType from the fill module: later checks overwrite earlier ones. -/
def getFillType (node : JVal) : String :=
  let t := ""
  let t := if jtruthy (jget node "a:noFill") then "NO_FILL" else t
  let t := if jtruthy (jget node "a:solidFill") then "SOLID_FILL" else t
  let t := if jtruthy (jget node "a:gradFill") then "GRADIENT_FILL" else t
  let t := if jtruthy (jget node "a:pattFill") then "PATTERN_FILL" else t
  let t := if jtruthy (jget node "a:blipFill") then "PIC_FILL" else t
  let t := if jtruthy (jget node "a:grpFill") then "GROUP_FILL" else t
  t

/-- getSolidFill from the fill module.  The JS variable `color` (a string or,
after a failed `attrs.val` lookup, `undefined`) is carried as a `JVal`; the
final step prepends `#` to a truthy colour that lacks one. -/
def getSolidFill (solidFill : JVal) (clrMap : JVal) (phClr : Option String)
    (warpObj : Warp) : JVal :=
  if jtruthy solidFill = false then .s ""
  else
    let srgb := jget solidFill "a:srgbClr"
    let scheme := jget solidFill "a:schemeClr"
    let scrgb := jget solidFill "a:scrgbClr"
    let prst := jget solidFill "a:prstClr"
    let hsl := jget solidFill "a:hslClr"
    let sys := jget solidFill "a:sysClr"
    let branch : JVal × JVal :=
      if jtruthy srgb then (getTextByPathList srgb ["attrs", "val"], srgb)
      else if jtruthy scheme then
        let sc := "a:" ++ jcoerceString (getTextByPathList scheme ["attrs", "val"])
        let c := getSchemeColorFromTheme sc warpObj clrMap phClr
        ((if jtruthy c then c else .s ""), scheme)
      else if jtruthy scrgb then
        (.s (scrgbChannelString (getTextByPathList scrgb ["attrs", "r"]) ++
             scrgbChannelString (getTextByPathList scrgb ["attrs", "g"]) ++
             scrgbChannelString (getTextByPathList scrgb ["attrs", "b"])), scrgb)
      else if jtruthy prst then
        (getColorName2Hex (jcoerceString (getTextByPathList prst ["attrs", "val"])), prst)
      else if jtruthy hsl then
        let hue : ℚ :=
          match jsToNumberNat (jcoerceString (getTextByPathList hsl ["attrs", "hue"])) with
          | some n => qdiv (n : ℚ) 100000
          | none => 0
        let pct (v : JVal) : ℚ :=
          match v with
          | .s str =>
            match jsToNumberNat ⟨str.data.takeWhile (fun c => c != '%')⟩ with
            | some n => qdiv (n : ℚ) 100
            | none => 0
          | _ => 0
        let sat := pct (getTextByPathList hsl ["attrs", "sat"])
        let lum := pct (getTextByPathList hsl ["attrs", "lum"])
        let rgb := hslToRgb hue sat lum
        (.s (toHex rgb.1 ++ toHex rgb.2.1 ++ toHex rgb.2.2), hsl)
      else if jtruthy sys then
        let lc := getTextByPathList sys ["attrs", "lastClr"]
        ((if jtruthy lc then lc else .s ""), sys)
      else (.s "", .undef)
    let color0 := branch.1
    let clrNode := branch.2
    let alphaOpt := (jsParseIntJ (getTextByPathList clrNode ["a:alpha", "attrs", "val"])).map
      (fun n => qdiv (n : ℚ) 100000)
    let withAlpha : JVal × Bool :=
      match alphaOpt with
      | some aq => (.s (tinycolorSetAlphaHex8 (jcoerceString color0) aq), true)
      | none => (color0, false)
    let color1 := withAlpha.1
    let isAlpha := withAlpha.2
    let modVal (key : String) : Option ℚ :=
      (jsParseIntJ (getTextByPathList clrNode [key, "attrs", "val"])).map
        (fun n => qdiv (n : ℚ) 100000)
    let color2 :=
      match modVal "a:hueMod" with
      | some v => JVal.s (applyHueMod (jcoerceString color1) v isAlpha)
      | none => color1
    let color3 :=
      match modVal "a:lumMod" with
      | some v => JVal.s (applyLumMod (jcoerceString color2) v isAlpha)
      | none => color2
    let color4 :=
      match modVal "a:lumOff" with
      | some v => JVal.s (applyLumOff (jcoerceString color3) v isAlpha)
      | none => color3
    let color5 :=
      match modVal "a:satMod" with
      | some v => JVal.s (applySatMod (jcoerceString color4) v isAlpha)
      | none => color4
    let color6 :=
      match modVal "a:shade" with
      | some v => JVal.s (applyShade (jcoerceString color5) v isAlpha)
      | none => color5
    let color7 :=
      match modVal "a:tint" with
      | some v => JVal.s (applyTint (jcoerceString color6) v isAlpha)
      | none => color6
    match color7 with
    | .s str => if str ≠ "" ∧ ¬ str.data.contains '#' then .s ("#" ++ str) else .s str
    | v => v

/-- A gradient stop record as getBgGradientFill builds it: the rendered
percentage string and the resolved colour. -/
structure GradStop where
  pos : String
  color : JVal

/-- The gradient record getBgGradientFill returns: rotation in degrees and
the sorted stop list. -/
structure GradientRec where
  rot : ℤ
  colors : List GradStop

/-- The three value shapes getBgGradientFill can return: the gradient record,
a plain colour string (the `phClr` fallback), or `null`. -/
inductive GradResult where
  | grd : GradientRec → GradResult
  | strv : String → GradResult
  | nullv : GradResult

/-- The comparator getBgGradientFill hands to `sort`:
`parseInt(a.pos) - parseInt(b.pos)`.  Per ECMAScript `SortCompare`, a `NaN`
comparator value (an empty-string position parses to `NaN`) counts as `+0`. -/
def stopCmp (x y : GradStop) : ℤ :=
  match jsParseInt x.pos, jsParseInt y.pos with
  | some m, some n => (m : ℤ) - n
  | _, _ => 0

instance stopLeDecidable : DecidableRel (fun x y : GradStop => stopCmp x y ≤ 0) :=
  fun x y => Int.decLe (stopCmp x y) 0

/-- `Array.prototype.sort` with `stopCmp`: ECMAScript specifies a stable sort
that is ordered by the comparator whenever the comparator is consistent, and
insertion on the non-strict relation `stopCmp x y ≤ 0` realises exactly that
result.  (With an inconsistent comparator — possible here when a stop lacks
its `pos` — the standard leaves the order implementation-defined; this is the
determinisation the embedding fixes.) -/
def jsSortStops (l : List GradStop) : List GradStop :=
  List.insertionSort (fun x y => stopCmp x y ≤ 0) l

/-- The gradient-stop items the `for` loop of getBgGradientFill iterates: an
indexed loop over `.length` runs zero times when `a:gs` is not an array (its
`length` is then `undefined`). -/
def gsItemsOf (bgPr : JVal) : List JVal :=
  match jget (jget (jget bgPr "a:gradFill") "a:gsLst") "a:gs" with
  | .a items => items
  | _ => []

/-- One iteration of getBgGradientFill's stop loop: resolve the colour
against the master colour map and render `pos / 1000 + '%'` for a truthy
`pos` attribute (the empty string for an absent one, `NaN%` for a non-numeric
one). -/
def gradStopOf (slideMasterContent : JVal) (phClr : Option String)
    (warpObj : Warp) (gs : JVal) : GradStop :=
  let masterClrMap := jget (jget (jget slideMasterContent "p:sldMaster") "p:clrMap") "attrs"
  let lo_color := getSolidFill gs masterClrMap phClr warpObj
  let pos := getTextByPathList gs ["attrs", "pos"]
  let posStr :=
    if jtruthy pos then
      match pos with
      | .s str =>
        match jsToNumberNat str with
        | some n => posNumberString n ++ "%"
        | none => "NaN%"
      | _ => "NaN%"
    else ""
  GradStop.mk posStr lo_color

/-- getBgGradientFill from the fill module. -/
def getBgGradientFill (bgPr : JVal) (phClr : Option String)
    (slideMasterContent : JVal) (warpObj : Warp) : GradResult :=
  if jtruthy bgPr then
    let color_ary := (gsItemsOf bgPr).map (gradStopOf slideMasterContent phClr warpObj)
    let lin := jget (jget bgPr "a:gradFill") "a:lin"
    let rot : ℤ :=
      if jtruthy lin then angleToDegrees (getTextByPathList lin ["attrs", "ang"]) + 90
      else 90
    .grd ⟨rot, jsSortStops color_ary⟩
  else
    match phClr with
    | some p =>
      if p ≠ "" then .strv (if p.data.contains '#' then p else "#" ++ p) else .nullv
    | none => .nullv

/-- `zip.file(path).async('arraybuffer')`: JSZip answers `null` for a missing
entry, so the chained `.async` call throws. -/
def zipFileBytes (zip : List (String × List (Fin 256))) (path : String) :
    Except JsError (List (Fin 256)) :=
  match zip.find? (fun p => p.1 == path) with
  | some p => .ok p.2
  | none => .error .fileError

/-- getPicFill from the fill module.  The `loaded-images` cache lookup is
always `undefined` because nothing in the source ever writes that key into
`warpObj`, so the body below goes straight to the ZIP read. -/
def getPicFill (typ : String) (node : JVal) (warpObj : Warp) :
    Except JsError JVal := do
  let blip ← jgetE node "a:blip"
  let attrs ← jgetE blip "attrs"
  let rId := jget attrs "r:embed"
  let rIdStr := jcoerceString rId
  let imgPath :=
    if typ = "slideBg" ∨ typ = "slide" then
      getTextByPathList warpObj.slideResObj [rIdStr, "target"]
    else if typ = "slideLayoutBg" then
      getTextByPathList warpObj.layoutResObj [rIdStr, "target"]
    else if typ = "slideMasterBg" then
      getTextByPathList warpObj.masterResObj [rIdStr, "target"]
    else if typ = "themeBg" then
      getTextByPathList warpObj.themeResObj [rIdStr, "target"]
    else if typ = "diagramBg" then
      getTextByPathList warpObj.diagramResObj [rIdStr, "target"]
    else .undef
  if jtruthy imgPath = false then return imgPath
  let imgPathStr := escapeHtml (jcoerceString imgPath)
  let imgExt := lastSegmentAfterDot imgPathStr
  if imgExt = "xml" then return .undef
  let bytes ← zipFileBytes warpObj.zip imgPathStr
  let imgMimeType := getMimeType imgExt
  return .s ("data:" ++ imgMimeType ++ ";base64," ++ base64ArrayBuffer bytes)

/-- The record getBgPicFill returns. -/
structure PicFillRec where
  picBase64 : JVal
  opacity : ℚ

/-- getBgPicFill from the fill module. -/
def getBgPicFill (bgPr : JVal) (sorce : String) (warpObj : Warp) :
    Except JsError PicFillRec := do
  let picBase64 ← getPicFill sorce (jget bgPr "a:blipFill") warpObj
  let aBlipNode := jget (jget bgPr "a:blipFill") "a:blip"
  let aphaModFixNode := getTextByPathList aBlipNode ["a:alphaModFix", "attrs"]
  let amt := jget aphaModFixNode "amt"
  let opacity : ℚ :=
    if jtruthy aphaModFixNode ∧ jtruthy amt then
      match jsParseIntJ amt with
      | some n => qdiv (n : ℚ) 100000
      | none => 1
    else 1
  return ⟨picBase64, opacity⟩

/-- The heterogeneous `background` value of getSlideBackgroundFill: a JS
string (or the `undefined` a failed solid resolution leaves), a gradient
record, or a picture-fill record. -/
inductive BgValue where
  | jv : JVal → BgValue
  | grad : GradientRec → BgValue
  | pic : PicFillRec → BgValue

/-- The `{type, value}` record getSlideBackgroundFill returns. -/
structure BgResult where
  typ : String
  value : BgValue

/-- getSlideBackgroundFill from the fill module.  When the slide itself has
no `p:bg`, the source re-reads `bgPr`/`bgRef` from the layout and then from
the master, but the code that would process those values is elided behind
`// ... (omitted, similar handling)` comments, so the initial defaults
`type = 'color'`, `background = '#fff'` are returned no matter what the
layout or master carry; the slide-level `p:bgRef` branch is elided the same
way. -/
def getSlideBackgroundFill (warpObj : Warp) : Except JsError BgResult := do
  let slideContent := warpObj.slideContent
  let slideLayoutContent := warpObj.slideLayoutContent
  let slideMasterContent := warpObj.slideMasterContent
  let bgPr := getTextByPathList slideContent ["p:sld", "p:cSld", "p:bg", "p:bgPr"]
  let bgRef := getTextByPathList slideContent ["p:sld", "p:cSld", "p:bg", "p:bgRef"]
  if jtruthy bgPr then
    let bgFillTyp := getFillType bgPr
    if bgFillTyp = "SOLID_FILL" then
      let sldFill := jget bgPr "a:solidFill"
      let sldClrMapOvr :=
        getTextByPathList slideContent ["p:sld", "p:clrMapOvr", "a:overrideClrMapping", "attrs"]
      let clrMapOvr :=
        if jtruthy sldClrMapOvr then sldClrMapOvr
        else
          let layoutOvr := getTextByPathList slideLayoutContent
            ["p:sldLayout", "p:clrMapOvr", "a:overrideClrMapping", "attrs"]
          if jtruthy layoutOvr then layoutOvr
          else getTextByPathList slideMasterContent ["p:sldMaster", "p:clrMap", "attrs"]
      let sldBgClr := getSolidFill sldFill clrMapOvr none warpObj
      return ⟨"color", .jv sldBgClr⟩
    else if bgFillTyp = "GRADIENT_FILL" then
      match getBgGradientFill bgPr none slideMasterContent warpObj with
      | .strv str => return ⟨"color", .jv (.s str)⟩
      | .grd g => return ⟨"gradient", .grad g⟩
      | .nullv => return ⟨"color", .jv (.s "#fff")⟩
    else if bgFillTyp = "PIC_FILL" then
      let p ← getBgPicFill bgPr "slideBg" warpObj
      return ⟨"image", .pic p⟩
    else return ⟨"color", .jv (.s "#fff")⟩
  else if jtruthy bgRef then
    return ⟨"color", .jv (.s "#fff")⟩
  else
    let _bgPrLayout := getTextByPathList slideLayoutContent
      ["p:sldLayout", "p:cSld", "p:bg", "p:bgPr"]
    let _bgRefLayout := getTextByPathList slideLayoutContent
      ["p:sldLayout", "p:cSld", "p:bg", "p:bgRef"]
    let _bgPrMaster := getTextByPathList slideMasterContent
      ["p:sldMaster", "p:cSld", "p:bg", "p:bgPr"]
    let _bgRefMaster := getTextByPathList slideMasterContent
      ["p:sldMaster", "p:cSld", "p:bg", "p:bgRef"]
    return ⟨"color", .jv (.s "#fff")⟩

/-- getShapeFill from the fill module. -/
def getShapeFill (node : JVal) (isSvgMode : Bool) (warpObj : Warp) : JVal :=
  if jtruthy (getTextByPathList node ["p:spPr", "a:noFill"]) then
    (if isSvgMode then .s "none" else .s "")
  else
    let f1 := getTextByPathList node ["p:spPr", "a:solidFill", "a:srgbClr", "attrs", "val"]
    let f2 :=
      if jtruthy f1 then f1
      else
        let schemeClr := "a:" ++
          jcoerceString (getTextByPathList node
            ["p:spPr", "a:solidFill", "a:schemeClr", "attrs", "val"])
        getSchemeColorFromTheme schemeClr warpObj .undef none
    let f3 :=
      if jtruthy f2 then f2
      else
        let schemeClr := "a:" ++
          jcoerceString (getTextByPathList node
            ["p:style", "a:fillRef", "a:schemeClr", "attrs", "val"])
        getSchemeColorFromTheme schemeClr warpObj .undef none
    if jtruthy f3 then
      let fillColor := "#" ++ jcoerceString f3
      let lumMod : ℚ :=
        match jsParseIntJ (getTextByPathList node
          ["p:spPr", "a:solidFill", "a:schemeClr", "a:lumMod", "attrs", "val"]) with
        | some n => qdiv (n : ℚ) 100000
        | none => 1
      let lumOff : ℚ :=
        match jsParseIntJ (getTextByPathList node
          ["p:spPr", "a:solidFill", "a:schemeClr", "a:lumOff", "attrs", "val"]) with
        | some n => qdiv (n : ℚ) 100000
        | none => 0
      .s (tinycolorLumRoundTrip fillColor lumMod lumOff)
    else if isSvgMode then .s "none"
    else f3

/-- Modelled from the spec: constants.js is not under src/; §3 and §6 fix
`EMU_TO_POINT = 1/12700`, the factor `RATIO_EMUs_Points` applies to every
coordinate. -/
def RATIO_EMUs_Points : ℚ := mkRat 1 12700

/-- `parseInt(attr) * RATIO_EMUs_Points` as the geometry code computes it.  A
missing attribute would propagate `NaN` through the arithmetic; no claim
exercises that corner, so it is modelled as 0. -/
def emuToPoint (v : JVal) : ℚ :=
  match jsParseIntJ v with
  | some n => qmul (n : ℚ) RATIO_EMUs_Points
  | none => 0

/-- Strict-equality test of a JS value against a string literal, as the
`=== '1'` flip checks perform it. -/
def jeqStr (v : JVal) (lit : String) : Bool :=
  match v with
  | .s t => t == lit
  | _ => false

/-- The string payload of a truthy tree value, `none` otherwise. -/
def toOptString : JVal → Option String
  | .s t => some t
  | _ => none

/-- Modelled from the spec: position.js is not under src/.  §4.4 — the first
node of the slide ▸ layout ▸ master chain that provides `a:off` wins, a chain
with no `a:off` yields the origin; values convert to points.  Returns
`(left, top)`. -/
def getPosition (slideXfrm layoutXfrm masterXfrm : JVal) : ℚ × ℚ :=
  let off :=
    if jtruthy (jget slideXfrm "a:off") then jget slideXfrm "a:off"
    else if jtruthy (jget layoutXfrm "a:off") then jget layoutXfrm "a:off"
    else jget masterXfrm "a:off"
  if jtruthy off then
    (emuToPoint (getTextByPathList off ["attrs", "x"]),
     emuToPoint (getTextByPathList off ["attrs", "y"]))
  else (0, 0)

/-- Modelled from the spec: position.js `getSize`, analogous to `getPosition`
with `a:ext`'s `cx`/`cy`.  Returns `(width, height)`. -/
def getSize (slideXfrm layoutXfrm masterXfrm : JVal) : ℚ × ℚ :=
  let ext :=
    if jtruthy (jget slideXfrm "a:ext") then jget slideXfrm "a:ext"
    else if jtruthy (jget layoutXfrm "a:ext") then jget layoutXfrm "a:ext"
    else jget masterXfrm "a:ext"
  if jtruthy ext then
    (emuToPoint (getTextByPathList ext ["attrs", "cx"]),
     emuToPoint (getTextByPathList ext ["attrs", "cy"]))
  else (0, 0)

/-- Modelled from the spec: border.js is an external collaborator (§6) whose
four outputs are copied into the element record untouched; no claim
constrains them, so they stay `undefined` here. -/
def getBorder (node : JVal) (typ : Option String) (warpObj : Warp) :
    JVal × JVal × JVal × JVal :=
  (.undef, .undef, .undef, .undef)

/-- Modelled from the spec: text.js `genTextBody` is an external collaborator
(§6) producing an opaque HTML string no claim inspects. -/
def genTextBody (txBody : JVal) (parentNode : JVal) (layoutNode : JVal)
    (typ : Option String) (warpObj : Warp) : String := ""

/-- Modelled from the spec: align.js `getVerticalAlign` is an external helper
whose string output no claim inspects. -/
def getVerticalAlign (node slideLayoutSpNode slideMasterSpNode : JVal)
    (typ : Option String) : String := "mid"

/-- Modelled from the spec: shadow.js `getShadow` is an external collaborator
(§6) building an opaque shadow descriptor. -/
def getShadow (outerShdwNode : JVal) (warpObj : Warp) : JVal := .o []

/-- Modelled from the spec: shape.js `getCustomShapePath` is the external
`customPath(geom, w, h) → svg-path` collaborator (§1, §6). -/
def getCustomShapePath (custShapType : JVal) (w h : ℚ) : String := ""

/-- The flat data of an emitted element record.  `typ` renders the JS `type`
key; optional fields are absent keys of the JS object. -/
structure EData where
  typ : String := ""
  left : ℚ := 0
  top : ℚ := 0
  width : ℚ := 0
  height : ℚ := 0
  rotate : Option ℚ := none
  isFlipV : Bool := false
  isFlipH : Bool := false
  fillColor : String := ""
  content : String := ""
  borderColor : JVal := .undef
  borderWidth : JVal := .undef
  borderType : JVal := .undef
  borderStrokeDasharray : JVal := .undef
  vAlign : String := ""
  name : JVal := .undef
  shadow : Option JVal := none
  shapType : Option String := none
  path : Option String := none
  isVertical : Option Bool := none
  src : Option String := none
  blob : Option String := none

/-- An emitted element: its record data plus the nested `elements` array a
group (or diagram) carries. -/
inductive Element where
  | el : EData → List Element → Element

/-- The flat record of an element. -/
def Element.data : Element → EData
  | .el d _ => d

/-- The nested `elements` array of an element. -/
def Element.children : Element → List Element
  | .el _ ch => ch

/-- genShape from src (lines 805-911).  The awaited background fill is
computed and discarded exactly as the source does (its only observable effect
is a possible exception). -/
def genShape (node slideLayoutSpNode slideMasterSpNode : JVal) (name : JVal)
    (typ : Option String) (warpObj : Warp) : Except JsError Element := do
  let xfrmList : List String := ["p:spPr", "a:xfrm"]
  let slideXfrmNode := getTextByPathList node xfrmList
  let slideLayoutXfrmNode := getTextByPathList slideLayoutSpNode xfrmList
  let slideMasterXfrmNode := getTextByPathList slideMasterSpNode xfrmList
  let shapType := getTextByPathList node ["p:spPr", "a:prstGeom", "attrs", "prst"]
  let custShapType := getTextByPathList node ["p:spPr", "a:custGeom"]
  let pos := getPosition slideXfrmNode slideLayoutXfrmNode slideMasterXfrmNode
  let sz := getSize slideXfrmNode slideLayoutXfrmNode slideMasterXfrmNode
  let isFlipV := jeqStr (getTextByPathList slideXfrmNode ["attrs", "flipV"]) "1"
  let isFlipH := jeqStr (getTextByPathList slideXfrmNode ["attrs", "flipH"]) "1"
  let rotate : ℤ := angleToDegrees (getTextByPathList slideXfrmNode ["attrs", "rot"])
  let txtXframeNode := getTextByPathList node ["p:txXfrm"]
  let txtRotate : Option ℚ :=
    if jtruthy txtXframeNode then
      let txtXframeRot := getTextByPathList txtXframeNode ["attrs", "rot"]
      if jtruthy txtXframeRot then some ((angleToDegrees txtXframeRot + 90 : ℤ) : ℚ)
      else none
    else some ((rotate : ℤ) : ℚ)
  let content :=
    if jtruthy (jget node "p:txBody") then
      genTextBody (jget node "p:txBody") node slideLayoutSpNode typ warpObj
    else ""
  let border := getBorder node typ warpObj
  let fillColorJ := getShapeFill node false warpObj
  let fillColor := if jtruthy fillColorJ then jcoerceString fillColorJ else ""
  let _gradientFill ← getSlideBackgroundFill warpObj
  let outerShdwNode := getTextByPathList node ["p:spPr", "a:effectLst", "a:outerShdw"]
  let shadow := if jtruthy outerShdwNode then some (getShadow outerShdwNode warpObj) else none
  let vAlign := getVerticalAlign node slideLayoutSpNode slideMasterSpNode typ
  let isVertical := jeqStr (getTextByPathList node ["p:txBody", "a:bodyPr", "attrs", "vert"]) "eaVert"
  let data : EData :=
    { left := pos.1, top := pos.2, width := sz.1, height := sz.2,
      borderColor := border.1, borderWidth := border.2.1,
      borderType := border.2.2.1, borderStrokeDasharray := border.2.2.2,
      fillColor := fillColor, content := content,
      isFlipV := isFlipV, isFlipH := isFlipH,
      rotate := some ((rotate : ℤ) : ℚ), vAlign := vAlign, name := name,
      shadow := shadow }
  if jtruthy custShapType ∧ typ ≠ some "diagram" then
    let ext := getTextByPathList slideXfrmNode ["a:ext", "attrs"]
    let extCx ← jgetE ext "cx"
    let extCy ← jgetE ext "cy"
    let w := emuToPoint extCx
    let h := emuToPoint extCy
    let d := getCustomShapePath custShapType w h
    return .el { data with typ := "shape", shapType := some "custom", path := some d } []
  if jtruthy shapType ∧ (typ = some "obj" ∨ (typ.getD "") = "") then
    return .el { data with typ := "shape", shapType := some (jcoerceString shapType) } []
  return .el { data with typ := "text", isVertical := some isVertical, rotate := txtRotate } []

/-- processSpNode from src (lines 739-786): placeholder lookup by `type`
then `idx`, the type-inference chain (`txBox`, layout, master, source
default), then genShape. -/
def processSpNode (node : JVal) (warpObj : Warp) (source : String) :
    Except JsError Element :=
  let name := getTextByPathList node ["p:nvSpPr", "p:cNvPr", "attrs", "name"]
  let idx := getTextByPathList node ["p:nvSpPr", "p:nvPr", "p:ph", "attrs", "idx"]
  let type0 := getTextByPathList node ["p:nvSpPr", "p:nvPr", "p:ph", "attrs", "type"]
  let slideLayoutSpNode :=
    if jtruthy type0 then
      jget (jget warpObj.slideLayoutTables "typeTable") (jcoerceString type0)
    else if jtruthy idx then
      jget (jget warpObj.slideLayoutTables "idxTable") (jcoerceString idx)
    else .undef
  let slideMasterSpNode :=
    if jtruthy type0 then
      jget (jget warpObj.slideMasterTables "typeTable") (jcoerceString type0)
    else if jtruthy idx then
      jget (jget warpObj.slideMasterTables "idxTable") (jcoerceString idx)
    else .undef
  let type1 :=
    if jtruthy type0 then type0
    else if jeqStr (getTextByPathList node ["p:nvSpPr", "p:cNvSpPr", "attrs", "txBox"]) "1"
      then .s "text" else type0
  let type2 :=
    if jtruthy type1 then type1
    else getTextByPathList slideLayoutSpNode ["p:nvSpPr", "p:nvPr", "p:ph", "attrs", "type"]
  let type3 :=
    if jtruthy type2 then type2
    else getTextByPathList slideMasterSpNode ["p:nvSpPr", "p:nvPr", "p:ph", "attrs", "type"]
  let type4 :=
    if jtruthy type3 then type3
    else if source = "diagramBg" then .s "diagram" else .s "obj"
  genShape node slideLayoutSpNode slideMasterSpNode name (toOptString type4) warpObj

/-- processCxnSpNode from src (lines 788-793): the name comes from a direct
index chain; when a placeholder is present the source then reads the type
through the connector-less `p:nvSpPr` chain (throwing on a real connector —
a latent slip no claim reaches). -/
def processCxnSpNode (node : JVal) (warpObj : Warp) : Except JsError Element := do
  let nvc ← jgetE node "p:nvCxnSpPr"
  let cNvPr ← jgetE nvc "p:cNvPr"
  let cattrs ← jgetE cNvPr "attrs"
  let name := jget cattrs "name"
  let nvPr ← jgetE nvc "p:nvPr"
  let typ ←
    match jget nvPr "p:ph" with
    | .undef => pure (Option.none (α := String))
    | _ => do
      let nvSp ← jgetE node "p:nvSpPr"
      let b ← jgetE nvSp "p:nvPr"
      let c ← jgetE b "p:ph"
      let d ← jgetE c "attrs"
      pure (toOptString (jget d "type"))
  genShape node .undef .undef name typ warpObj

/-- processPicNode from src (lines 913-1017).  `URL.createObjectURL(blob)` is
an opaque handle; it is modelled as the media path tagged with `blob:`. -/
def processPicNode (node : JVal) (warpObj : Warp) (source : String) :
    Except JsError Element := do
  let resObj :=
    if source = "slideMasterBg" then warpObj.masterResObj
    else if source = "slideLayoutBg" then warpObj.layoutResObj
    else warpObj.slideResObj
  let blipFill ← jgetE node "p:blipFill"
  let blip ← jgetE blipFill "a:blip"
  let battrs ← jgetE blip "attrs"
  let rid := jget battrs "r:embed"
  let entry := jget resObj (jcoerceString rid)
  let imgNameJ ← jgetE entry "target"
  let imgName := jcoerceString imgNameJ
  let imgFileExt := jsToLower (extractFileExtension imgName)
  let imgArrayBuffer ← zipFileBytes warpObj.zip imgName
  let spPr := jget node "p:spPr"
  let xfrmNode ← jgetE spPr "a:xfrm"
  let mimeType := getMimeType imgFileExt
  let pos := getPosition xfrmNode .undef .undef
  let sz := getSize xfrmNode .undef .undef
  let src := "data:" ++ mimeType ++ ";base64," ++ base64ArrayBuffer imgArrayBuffer
  let isFlipV := jeqStr (getTextByPathList xfrmNode ["attrs", "flipV"]) "1"
  let isFlipH := jeqStr (getTextByPathList xfrmNode ["attrs", "flipH"]) "1"
  let rotateNode := getTextByPathList node ["p:spPr", "a:xfrm", "attrs", "rot"]
  let rotate : ℤ := if jtruthy rotateNode then angleToDegrees rotateNode else 0
  let videoNode := getTextByPathList node ["p:nvPicPr", "p:nvPr", "a:videoFile"]
  let videoInfo ←
    if jtruthy videoNode then do
      let vattrs ← jgetE videoNode "attrs"
      let videoRid := jget vattrs "r:link"
      let ventry := jget resObj (jcoerceString videoRid)
      let videoFileJ ← jgetE ventry "target"
      let videoFile := jcoerceString videoFileJ
      if isVideoLink videoFile then
        pure (some (escapeHtml videoFile, true, Option.none (α := String)))
      else
        let videoFileExt := jsToLower (extractFileExtension videoFile)
        if videoFileExt = "mp4" ∨ videoFileExt = "webm" ∨ videoFileExt = "ogg" then do
          let _bytes ← zipFileBytes warpObj.zip videoFile
          pure (some (videoFile, false, some ("blob:" ++ videoFile)))
        else pure (some (videoFile, false, Option.none (α := String)))
    else pure none
  let audioNode := getTextByPathList node ["p:nvPicPr", "p:nvPr", "a:audioFile"]
  let audioInfo ←
    if jtruthy audioNode then do
      let aattrs ← jgetE audioNode "attrs"
      let audioRid := jget aattrs "r:link"
      let aentry := jget resObj (jcoerceString audioRid)
      let audioFileJ ← jgetE aentry "target"
      let audioFile := jcoerceString audioFileJ
      let audioFileExt := jsToLower (extractFileExtension audioFile)
      if audioFileExt = "mp3" ∨ audioFileExt = "wav" ∨ audioFileExt = "ogg" then do
        let _bytes ← zipFileBytes warpObj.zip audioFile
        pure (some (some ("blob:" ++ audioFile)))
      else pure (some (Option.none (α := String)))
    else pure none
  match videoInfo with
  | some (vfile, isLink, vblob) =>
    if isLink then
      return .el { typ := "video", top := pos.2, left := pos.1,
                   width := sz.1, height := sz.2,
                   rotate := some ((rotate : ℤ) : ℚ), src := some vfile } []
    else
      return .el { typ := "video", top := pos.2, left := pos.1,
                   width := sz.1, height := sz.2,
                   rotate := some ((rotate : ℤ) : ℚ), blob := vblob } []
  | none =>
  match audioInfo with
  | some ablob =>
    return .el { typ := "audio", top := pos.2, left := pos.1,
                 width := sz.1, height := sz.2,
                 rotate := some ((rotate : ℤ) : ℚ), blob := ablob } []
  | none =>
    return .el { typ := "image", top := pos.2, left := pos.1,
                 width := sz.1, height := sz.2,
                 rotate := some ((rotate : ℤ) : ℚ), src := some src,
                 isFlipV := isFlipV, isFlipH := isFlipH } []

/-- The field list of an object (`for (const key in node)` iterates fields in
insertion order). -/
def jfields : JVal → List (String × JVal)
  | .o fields => fields
  | _ => []

/-- The child re-expression of processGroupSpNode's return value: the spread
copies the element record and overwrites only its geometry with
`((left − chx)·ws, (top − chy)·hs, width·ws, height·hs)`. -/
def groupAdjustChild (chx chy ws hs : ℚ) : Element → Element
  | .el d ch =>
    .el { d with
      left := qmul (qsub d.left chx) ws,
      top := qmul (qsub d.top chy) hs,
      width := qmul d.width ws,
      height := qmul d.height hs } ch

/-- The per-item loop body shared by the slide-level and group-level walks:
dispatch each node of an array-valued key in order, keeping non-null
results. -/
def processItemsCore (recurse : String → JVal → Except JsError (Option Element))
    (key : String) : List JVal → Except JsError (List Element)
  | [] => .ok []
  | it :: rest => do
    let r ← recurse key it
    let more ← processItemsCore recurse key rest
    pure (r.toList ++ more)

/-- The `for (const nodeKey in nodes)` loop shared by processSingleSlide and
processGroupSpNode: iterate the fields in insertion order; an array value is
walked item by item, any other value is dispatched once; non-null results are
pushed in encounter order. -/
def processEntriesCore (recurse : String → JVal → Except JsError (Option Element)) :
    List (String × JVal) → Except JsError (List Element)
  | [] => .ok []
  | (key, v) :: rest => do
    let here ←
      match v with
      | .a items => processItemsCore recurse key items
      | other => Option.toList <$> recurse key other
    let more ← processEntriesCore recurse rest
    pure (here ++ more)

/-- Dispatch of one raw child sequence in document order (each pair
dispatched once); the reference point of the element-order claim. -/
def processPairsCore (recurse : String → JVal → Except JsError (Option Element)) :
    List (String × JVal) → Except JsError (List Element)
  | [] => .ok []
  | (key, v) :: rest => do
    let r ← recurse key v
    let more ← processPairsCore recurse rest
    pure (r.toList ++ more)

/-- processGroupSpNode from src (lines 682-730), parameterised by the child
dispatcher so the recursion stays structural in the fuel: reject a group
without `p:grpSpPr/a:xfrm`, read the frame, walk every child entry, and remap
each child's geometry into the group frame. -/
def processGroupSpNodeCore
    (recurse : String → JVal → Except JsError (Option Element)) (node : JVal) :
    Except JsError (Option Element) := do
  let xfrmNode := getTextByPathList node ["p:grpSpPr", "a:xfrm"]
  if jtruthy xfrmNode = false then return none
  let offAttrs ← jgetE (jget xfrmNode "a:off") "attrs"
  let chOffAttrs ← jgetE (jget xfrmNode "a:chOff") "attrs"
  let extAttrs ← jgetE (jget xfrmNode "a:ext") "attrs"
  let chExtAttrs ← jgetE (jget xfrmNode "a:chExt") "attrs"
  let x := emuToPoint (jget offAttrs "x")
  let y := emuToPoint (jget offAttrs "y")
  let chx := emuToPoint (jget chOffAttrs "x")
  let chy := emuToPoint (jget chOffAttrs "y")
  let cx := emuToPoint (jget extAttrs "cx")
  let cy := emuToPoint (jget extAttrs "cy")
  let chcx := emuToPoint (jget chExtAttrs "cx")
  let chcy := emuToPoint (jget chExtAttrs "cy")
  let rotJ := getTextByPathList xfrmNode ["attrs", "rot"]
  let rotate : ℤ := if jtruthy rotJ then angleToDegrees rotJ else 0
  let ws := qdiv cx chcx
  let hs := qdiv cy chcy
  let elements ← processEntriesCore recurse (jfields node)
  return some (.el
    { typ := "group", top := y, left := x, width := cx, height := cy,
      rotate := some ((rotate : ℤ) : ℚ) }
    (elements.map (groupAdjustChild chx chy ws hs)))

/-- processNodesInSlide from src (lines 645-673): the dispatch table over the
child's tag.  `fuel` bounds the group-nesting depth (true unbounded nesting
would overflow the JS stack); the graphic-frame handlers (table, chart,
diagram) consume only external collaborators and are outside the modelled
fragment — no claim routes through them. -/
def processNodesInSlide : ℕ → String → JVal → Warp → String →
    Except JsError (Option Element)
  | 0, _, _, _, _ => .error .typeError
  | fuel + 1, nodeKey, nodeValue, warpObj, source =>
    if nodeKey = "p:sp" then (processSpNode nodeValue warpObj source).map some
    else if nodeKey = "p:cxnSp" then (processCxnSpNode nodeValue warpObj).map some
    else if nodeKey = "p:pic" then (processPicNode nodeValue warpObj source).map some
    else if nodeKey = "p:graphicFrame" then .ok none
    else if nodeKey = "p:grpSp" then
      processGroupSpNodeCore
        (fun k n => processNodesInSlide fuel k n warpObj source) nodeValue
    else if nodeKey = "mc:AlternateContent" then
      processGroupSpNodeCore
        (fun k n => processNodesInSlide fuel k n warpObj source)
        (getTextByPathList nodeValue ["mc:Fallback"])
    else .ok none

/-- processGroupSpNode with its source signature, delegating child dispatch
to `processNodesInSlide` at the given depth budget. -/
def processGroupSpNode (fuel : ℕ) (node : JVal) (warpObj : Warp) (source : String) :
    Except JsError (Option Element) :=
  processGroupSpNodeCore (fun k n => processNodesInSlide fuel k n warpObj source) node

/-- The element loop of processSingleSlide (lines 528-540): iterate the
slide's `p:spTree` object and collect every non-null dispatch result. -/
def processSpTreeElements (fuel : ℕ) (nodes : JVal) (warpObj : Warp) :
    Except JsError (List Element) :=
  processEntriesCore (fun k n => processNodesInSlide fuel k n warpObj "slide") (jfields nodes)

/-- Document-order dispatch of a raw (pre-collapse) child sequence: what the
order claim compares the emitted elements against. -/
def processChildrenDocOrder (fuel : ℕ) (children : List (String × JVal)) (warpObj : Warp) :
    Except JsError (List Element) :=
  processPairsCore (fun k n => processNodesInSlide fuel k n warpObj "slide") children

/-- Bucket insertion of the XML reader's tag-collapse: a later child with an
already-seen tag joins that tag's bucket, a new tag opens a bucket at the
end. -/
def addToGroup : List (String × List JVal) → String → JVal → List (String × List JVal)
  | [], k, n => [(k, [n])]
  | (k', ns) :: t, k, n =>
    if k' = k then (k', ns ++ [n]) :: t else (k', ns) :: addToGroup t k n

/-- Group a raw child sequence by tag: keys in first-occurrence order, each
bucket in document order. -/
def groupByTag (children : List (String × JVal)) : List (String × List JVal) :=
  children.foldl (fun acc p => addToGroup acc p.1 p.2) []

/-- A collapsed bucket: a single child stays scalar, repeats become an
array. -/
def collapseBucket : List JVal → JVal
  | [n] => n
  | ns => .a ns

/-- Modelled from the spec: the readXmlFile collaborator (§6) turns an
element's child sequence into an object keyed by tag — keys in first
occurrence order, a single child staying scalar, repeats collapsing to an
array. -/
def xmlCollapse (children : List (String × JVal)) : JVal :=
  .o ((groupByTag children).map (fun p => (p.1, collapseBucket p.2)))

theorem except_bind_append_assoc (H P Q : Except JsError (List Element)) :
    (do
      let h ← H
      let m ← (do
        let a ← P
        let b ← Q
        pure (a ++ b))
      pure (h ++ m)) =
    (do
      let x ← (do
        let h ← H
        let a ← P
        pure (h ++ a))
      let b ← Q
      pure (x ++ b)) := by
  cases H <;> cases P <;> cases Q <;>
    first
      | rfl
      | exact congrArg Except.ok (List.append_assoc _ _ _).symm

theorem processEntriesCore_append
    (recurse : String → JVal → Except JsError (Option Element))
    (l1 l2 : List (String × JVal)) :
    processEntriesCore recurse (l1 ++ l2) =
      (do
        let a ← processEntriesCore recurse l1
        let b ← processEntriesCore recurse l2
        pure (a ++ b)) := by
  induction l1 with
  | nil =>
    simp only [List.nil_append, processEntriesCore]
    rw [show (Except.ok [] : Except JsError (List Element)) = pure [] from rfl]
    simp
  | cons hd tl ih =>
    obtain ⟨key, v⟩ := hd
    cases v <;>
      (simp only [List.cons_append, processEntriesCore]
       rw [List.append_eq, ih]
       exact except_bind_append_assoc _ _ _)

/-- A `p:sp` child: rectangle preset, red solid fill, EMU frame
`off = (914400, 914400)`, `ext = (914400, 457200)` — scenario 1 of §8. -/
def rectSpNode : JVal := .o [
  ("p:spPr", .o [
    ("a:xfrm", .o [
      ("a:off", .o [("attrs", .o [("x", .s "914400"), ("y", .s "914400")])]),
      ("a:ext", .o [("attrs", .o [("cx", .s "914400"), ("cy", .s "457200")])])]),
    ("a:prstGeom", .o [("attrs", .o [("prst", .s "rect")])]),
    ("a:solidFill", .o [("a:srgbClr", .o [("attrs", .o [("val", .s "FF0000")])])])])]

/-- A `p:sp` child resolving to a 100 × 100 pt rectangle at (500, 250) pt
with a green fill (EMU attributes; 12700 EMU per point). -/
def greenChildNode : JVal := .o [
  ("p:spPr", .o [
    ("a:xfrm", .o [
      ("a:off", .o [("attrs", .o [("x", .s "6350000"), ("y", .s "3175000")])]),
      ("a:ext", .o [("attrs", .o [("cx", .s "1270000"), ("cy", .s "1270000")])])]),
    ("a:prstGeom", .o [("attrs", .o [("prst", .s "rect")])]),
    ("a:solidFill", .o [("a:srgbClr", .o [("attrs", .o [("val", .s "00AA00")])])])])]

/-- Scenario 4 of §8: a group with `off = (0,0)`, `ext = (2000, 1000) pt`,
`chOff = (0,0)`, `chExt = (1000, 500) pt`, holding `greenChildNode`. -/
def c5GroupNode : JVal := .o [
  ("p:grpSpPr", .o [
    ("a:xfrm", .o [
      ("a:off", .o [("attrs", .o [("x", .s "0"), ("y", .s "0")])]),
      ("a:ext", .o [("attrs", .o [("cx", .s "25400000"), ("cy", .s "12700000")])]),
      ("a:chOff", .o [("attrs", .o [("x", .s "0"), ("y", .s "0")])]),
      ("a:chExt", .o [("attrs", .o [("cx", .s "12700000"), ("cy", .s "6350000")])])])]),
  ("p:sp", greenChildNode)]

/-- A group whose `chOff` equals its `off` = (100, 100) pt and whose `chExt`
equals its `ext` = (1000, 500) pt, holding `greenChildNode`. -/
def c7GroupNode : JVal := .o [
  ("p:grpSpPr", .o [
    ("a:xfrm", .o [
      ("a:off", .o [("attrs", .o [("x", .s "1270000"), ("y", .s "1270000")])]),
      ("a:ext", .o [("attrs", .o [("cx", .s "12700000"), ("cy", .s "6350000")])]),
      ("a:chOff", .o [("attrs", .o [("x", .s "1270000"), ("y", .s "1270000")])]),
      ("a:chExt", .o [("attrs", .o [("cx", .s "12700000"), ("cy", .s "6350000")])])])]),
  ("p:sp", greenChildNode)]

/-- C9: a `p:grpSp` node without `p:grpSpPr/a:xfrm` makes processGroupSpNode
return null, so the dispatch loop drops the group together with all of its
descendants — the emitted element list for a field list containing the group
equals the one with the group entry removed; the same null return covers an
`mc:AlternateContent` whose `mc:Fallback` content lacks the xfrm. -/
theorem c9_group_without_xfrm_is_omitted
    (fuel : ℕ) (g : JVal) (warpObj : Warp) (source : String)
    (hx : jtruthy (getTextByPathList g ["p:grpSpPr", "a:xfrm"]) = false)
    (hna : ∀ items, g ≠ JVal.a items) :
    processGroupSpNode fuel g warpObj source = .ok none ∧
    (∀ pre post : List (String × JVal),
      processEntriesCore (fun k n => processNodesInSlide (fuel + 1) k n warpObj source)
        (pre ++ ("p:grpSp", g) :: post) =
      processEntriesCore (fun k n => processNodesInSlide (fuel + 1) k n warpObj source)
        (pre ++ post)) ∧
    (∀ v : JVal, getTextByPathList v ["mc:Fallback"] = g →
      processNodesInSlide (fuel + 1) "mc:AlternateContent" v warpObj source = .ok none) := by
  have hcore : ∀ recurse, processGroupSpNodeCore recurse g = .ok none := by
    intro recurse
    simp [processGroupSpNodeCore, hx]
    rfl
  have hdisp : processNodesInSlide (fuel + 1) "p:grpSp" g warpObj source = .ok none := by
    simp [processNodesInSlide]
    exact hcore _
  refine ⟨hcore _, ?_, ?_⟩
  · intro pre post
    rw [processEntriesCore_append, processEntriesCore_append]
    have hcons :
        processEntriesCore
          (fun k n => processNodesInSlide (fuel + 1) k n warpObj source)
          (("p:grpSp", g) :: post) =
        processEntriesCore
          (fun k n => processNodesInSlide (fuel + 1) k n warpObj source) post := by
      cases g with
      | a items => exact absurd rfl (hna items)
      | undef =>
        simp only [processEntriesCore, hdisp]
        exact bind_pure
          (processEntriesCore (fun k n => processNodesInSlide (fuel + 1) k n warpObj source) post)
      | s str =>
        simp only [processEntriesCore, hdisp]
        exact bind_pure
          (processEntriesCore (fun k n => processNodesInSlide (fuel + 1) k n warpObj source) post)
      | o fields =>
        simp only [processEntriesCore, hdisp]
        exact bind_pure
          (processEntriesCore (fun k n => processNodesInSlide (fuel + 1) k n warpObj source) post)
    rw [hcons]
  · intro v hv
    have hstep : processNodesInSlide (fuel + 1) "mc:AlternateContent" v warpObj source =
        processGroupSpNodeCore (fun k n => processNodesInSlide fuel k n warpObj source)
          (getTextByPathList v ["mc:Fallback"]) := rfl
    rw [hstep, hv]
    exact hcore _

/-- Closed instance of the C9 theorem: the empty object is a group node with
no xfrm. -/
theorem c9_witness :
    jtruthy (getTextByPathList (JVal.o []) ["p:grpSpPr", "a:xfrm"]) = false ∧
    processGroupSpNode 3 (JVal.o []) emptyWarp "slide" = .ok none :=
  ⟨rfl, (c9_group_without_xfrm_is_omitted 3 (JVal.o []) emptyWarp "slide" rfl
    (fun items h => JVal.noConfusion h)).1⟩

/-- C5: the group emission re-expresses each already-resolved child as
`((left − chx)·sx, (top − chy)·sy, width·sx, height·sy)` while leaving its
rotation, fill and colours untouched, and the concrete §8 scenario-4 group
(off (0,0), ext (2000,1000), chOff (0,0), chExt (1000,500), child at
(500,250) of size (100,100)) emits that child at (1000, 500) with size
(200, 200). -/
theorem c5_group_child_transform :
    (∀ (chx chy sx sy : ℚ) (e : Element),
      (groupAdjustChild chx chy sx sy e).data.left = (e.data.left - chx) * sx ∧
      (groupAdjustChild chx chy sx sy e).data.top = (e.data.top - chy) * sy ∧
      (groupAdjustChild chx chy sx sy e).data.width = e.data.width * sx ∧
      (groupAdjustChild chx chy sx sy e).data.height = e.data.height * sy ∧
      (groupAdjustChild chx chy sx sy e).data.rotate = e.data.rotate ∧
      (groupAdjustChild chx chy sx sy e).data.fillColor = e.data.fillColor ∧
      (groupAdjustChild chx chy sx sy e).data.borderColor = e.data.borderColor ∧
      (groupAdjustChild chx chy sx sy e).children = e.children) ∧
    processGroupSpNode 3 c5GroupNode emptyWarp "slide" =
      .ok (some (Element.el
        { typ := "group", left := 0, top := 0, width := 2000, height := 1000,
          rotate := some 0 }
        [Element.el
          { typ := "shape", left := 1000, top := 500, width := 200, height := 200,
            rotate := some 0, fillColor := "#00aa00", vAlign := "mid",
            shapType := some "rect" } []])) := by
  constructor
  · intro chx chy sx sy e
    cases e with
    | el d ch =>
      simp [groupAdjustChild, Element.data, Element.children, qmul_eq_mul, qsub_eq_sub]
  · rfl

/-- C6 counterexample: the emitted fill-colour string of the §8 scenario-1
rectangle is the lower-case re-encoding `#ff0000` (the HSL round-trip through
the colour library lower-cases), not the claimed `#FF0000`. -/
theorem c6_counterexample :
    (processSpTreeElements 2 (JVal.o [("p:sp", rectSpNode)]) emptyWarp).map
        (fun es => es.map (fun e => e.data.fillColor)) = .ok ["#ff0000"] ∧
    ("#ff0000" : String) ≠ "#FF0000" := by
  exact ⟨rfl, by decide⟩

/-- C6 amended: the scenario-1 slide emits exactly one element, a rect shape
at (72, 72) pt of size 72 × 36 pt whose fill colour is the lower-case
`#ff0000`. -/
theorem c6_amended_rect_record :
    processSpTreeElements 2 (JVal.o [("p:sp", rectSpNode)]) emptyWarp =
      .ok [Element.el
        { typ := "shape", left := 72, top := 72, width := 72, height := 36,
          rotate := some 0, fillColor := "#ff0000", vAlign := "mid",
          shapType := some "rect" } []] := by
  rfl

/-- C7 counterexample: with `chOff = off = (100,100) pt` and
`chExt = ext = (1000,500) pt`, the child resolved at (500, 250) is emitted at
(400, 150) — translated by `−chOff`, not unchanged. -/
theorem c7_counterexample :
    processGroupSpNode 3 c7GroupNode emptyWarp "slide" =
      .ok (some (Element.el
        { typ := "group", left := 100, top := 100, width := 1000, height := 500,
          rotate := some 0 }
        [Element.el
          { typ := "shape", left := 400, top := 150, width := 100, height := 100,
            rotate := some 0, fillColor := "#00aa00", vAlign := "mid",
            shapType := some "rect" } []])) ∧
    processSpNode greenChildNode emptyWarp "slide" =
      .ok (Element.el
        { typ := "shape", left := 500, top := 250, width := 100, height := 100,
          rotate := some 0, fillColor := "#00aa00", vAlign := "mid",
          shapType := some "rect" } []) ∧
    (400 : ℚ) ≠ 500 := by
  refine ⟨rfl, rfl, by norm_num⟩

/-- C7 amended: when `chExt = ext` (both extents non-zero) the scales are 1,
so widths and heights pass through unchanged and left/top are shifted by
`−chOff`; the transform is the identity exactly when `chOff = (0,0)`. -/
theorem c7_amended_translation
    (cx cy chx chy : ℚ) (hx : cx ≠ 0) (hy : cy ≠ 0) (e : Element) :
    (groupAdjustChild chx chy (qdiv cx cx) (qdiv cy cy) e).data.width = e.data.width ∧
    (groupAdjustChild chx chy (qdiv cx cx) (qdiv cy cy) e).data.height = e.data.height ∧
    (groupAdjustChild chx chy (qdiv cx cx) (qdiv cy cy) e).data.left = e.data.left - chx ∧
    (groupAdjustChild chx chy (qdiv cx cx) (qdiv cy cy) e).data.top = e.data.top - chy ∧
    (chx = 0 → chy = 0 → groupAdjustChild chx chy (qdiv cx cx) (qdiv cy cy) e = e) := by
  have h1 : qdiv cx cx = 1 := by rw [qdiv_eq_div, div_self hx]
  have h2 : qdiv cy cy = 1 := by rw [qdiv_eq_div, div_self hy]
  cases e with
  | el d ch =>
    refine ⟨?_, ?_, ?_, ?_, ?_⟩ <;>
      simp [groupAdjustChild, Element.data, h1, h2, qmul_eq_mul, qsub_eq_sub]
    intro hchx hchy
    subst hchx
    subst hchy
    simp

/-- Closed instance of the C7 amended theorem at `ext = chExt = (2,2)`,
`chOff = (0,0)`: the transform is the identity. -/
theorem c7_amended_translation_witness :
    (2 : ℚ) ≠ 0 ∧
    groupAdjustChild 0 0 (qdiv 2 2) (qdiv 2 2) (Element.el { } []) = Element.el { } [] :=
  ⟨by norm_num,
    (c7_amended_translation 2 2 0 0 (by norm_num) (by norm_num)
      (Element.el { } [])).2.2.2.2 rfl rfl⟩


/-- A slide part with no `p:bg`. -/
def c2SlideNoBg : JVal := .o [("p:sld", .o [("p:cSld", .o [("p:spTree", .o [])])])]

/-- A layout part with no `p:bg`. -/
def c2LayoutNoBg : JVal := .o [("p:sldLayout", .o [("p:cSld", .o [("p:spTree", .o [])])])]

/-- The solid green background node used by the C2 inputs. -/
def greenBgPr : JVal :=
  .o [("a:solidFill", .o [("a:srgbClr", .o [("attrs", .o [("val", .s "00FF00")])])])]

/-- A master part carrying a solid green `p:bg/p:bgPr` and a colour map. -/
def c2MasterGreen : JVal := .o [
  ("p:sldMaster", .o [
    ("p:cSld", .o [("p:bg", .o [("p:bgPr", greenBgPr)])]),
    ("p:clrMap", .o [("attrs", .o [("bg1", .s "lt1"), ("tx1", .s "dk1")])])])]

/-- A slide part carrying the same solid green background directly. -/
def c2SlideWithBg : JVal := .o [
  ("p:sld", .o [("p:cSld", .o [("p:bg", .o [("p:bgPr", greenBgPr)]), ("p:spTree", .o [])])])]

/-- Warp for C2: slide and layout without `p:bg`, master with the green
background. -/
def c2Warp : Warp :=
  { emptyWarp with
      slideContent := c2SlideNoBg,
      slideLayoutContent := c2LayoutNoBg,
      slideMasterContent := c2MasterGreen }

/-- C2 (code defect): with no `p:bg` on the slide or the layout and a solid
green `p:bg/p:bgPr` on the master, getSlideBackgroundFill still answers the
default white — the layout/master legs of the precedence chain are elided in
the source — and it answers white again when the master carries no
background.  The last two conjuncts show the master's fill is a solid the
code recognises, and that the very same `p:bgPr` placed on the slide itself
resolves to `#00FF00`. -/
theorem c2_master_background_ignored :
    getSlideBackgroundFill c2Warp = .ok ⟨"color", .jv (.s "#fff")⟩ ∧
    getSlideBackgroundFill { c2Warp with slideMasterContent := .undef } =
      .ok ⟨"color", .jv (.s "#fff")⟩ ∧
    getFillType (getTextByPathList c2MasterGreen
      ["p:sldMaster", "p:cSld", "p:bg", "p:bgPr"]) = "SOLID_FILL" ∧
    getSlideBackgroundFill { c2Warp with slideContent := c2SlideWithBg } =
      .ok ⟨"color", .jv (.s "#00FF00")⟩ :=
  ⟨rfl, rfl, rfl, rfl⟩

/-- A hexadecimal digit of either case. -/
def isHexDigitChar (c : Char) : Bool :=
  isDigitChar c || ('a' ≤ c && c ≤ 'f') || ('A' ≤ c && c ≤ 'F')

/-- The colour-string invariant of the spec: a `#` followed by exactly six or
eight hexadecimal digits. -/
def matchesHexColorPattern (str : String) : Bool :=
  match str.data with
  | '#' :: rest => (rest.length == 6 || rest.length == 8) && rest.all isHexDigitChar
  | _ => false

/-- The C3 failing input: `a:scrgbClr` with the OOXML
thousandths-of-a-percent channels `50000` (= 50%). -/
def c3ScrgbFill : JVal :=
  .o [("a:scrgbClr", .o [("attrs", .o
    [("r", .s "50000"), ("g", .s "50000"), ("b", .s "50000")])])]

/-- C3 (code defect): the scrgb channel computation `255 * (50000 / 100)`
yields 127500, which toHex prints as the five-digit `1f20c`, so getSolidFill
emits `#1f20c1f20c1f20c` — neither a `#RRGGBB(AA)` string nor one of the
sentinels `''` and `'none'`. -/
theorem c3_scrgb_breaks_colour_pattern :
    getSolidFill c3ScrgbFill .undef none emptyWarp = .s "#1f20c1f20c1f20c" ∧
    matchesHexColorPattern "#1f20c1f20c1f20c" = false ∧
    "#1f20c1f20c1f20c" ≠ "" ∧ "#1f20c1f20c1f20c" ≠ "none" :=
  ⟨rfl, by decide, by decide, by decide⟩


/-- Property access on a defined value never throws. -/
theorem jgetE_of_ne_undef {v : JVal} (k : String) (h : v ≠ .undef) :
    jgetE v k = .ok (jget v k) := by
  cases v with
  | undef => exact absurd rfl h
  | s str => rfl
  | o fields => rfl
  | a items => rfl

/-- The `a:blipFill` value of the C8 picture node: its `r:embed` names a
relationship that exists in no resource map. -/
def c8BlipFillNode : JVal :=
  .o [("a:blip", .o [("attrs", .o [("r:embed", .s "rId99")])])]

/-- A `p:pic` node whose embedded-image relationship `rId99` is dangling. -/
def c8PicNode : JVal := .o [
  ("p:blipFill", c8BlipFillNode),
  ("p:spPr", .o [("a:xfrm", .o [
    ("a:off", .o [("attrs", .o [("x", .s "0"), ("y", .s "0")])]),
    ("a:ext", .o [("attrs", .o [("cx", .s "1270000"), ("cy", .s "1270000")])])])])]

/-- C8 counterexample: processPicNode indexes `resObj[rid].target` without a
guard, so a dangling `r:embed` throws a TypeError instead of producing a
placeholder element. -/
theorem c8_counterexample_processPicNode_throws :
    processPicNode c8PicNode emptyWarp "slide" = .error .typeError := rfl

/-- C8 amended: getPicFill, by contrast, recovers from a dangling rId — the
guarded lookup leaves `imgPath` falsy and the function returns that value
(empty fill, no media read) without throwing. -/
theorem c8_amended_getPicFill_recovers
    (node : JVal) (warpObj : Warp)
    (hn : node ≠ .undef) (hb : jget node "a:blip" ≠ .undef)
    (hdangling : jtruthy (getTextByPathList warpObj.slideResObj
      [jcoerceString (jget (jget (jget node "a:blip") "attrs") "r:embed"), "target"])
      = false) :
    getPicFill "slide" node warpObj =
      .ok (getTextByPathList warpObj.slideResObj
        [jcoerceString (jget (jget (jget node "a:blip") "attrs") "r:embed"), "target"]) := by
  unfold getPicFill
  rw [jgetE_of_ne_undef _ hn]
  simp only [Bind.bind, Except.bind]
  rw [jgetE_of_ne_undef _ hb]
  simp only [Bind.bind, Except.bind]
  simp [hdangling]
  rfl

/-- Closed instance of the C8 amended theorem at the dangling `rId99`
blip-fill node: getPicFill answers `undefined` rather than throwing. -/
theorem c8_amended_witness :
    c8BlipFillNode ≠ JVal.undef ∧
    jget c8BlipFillNode "a:blip" ≠ JVal.undef ∧
    jtruthy (getTextByPathList emptyWarp.slideResObj
      [jcoerceString (jget (jget (jget c8BlipFillNode "a:blip") "attrs") "r:embed"),
       "target"]) = false ∧
    getPicFill "slide" c8BlipFillNode emptyWarp = .ok .undef :=
  ⟨fun h => JVal.noConfusion h,
   fun h => JVal.noConfusion h,
   rfl,
   c8_amended_getPicFill_recovers c8BlipFillNode emptyWarp
     (fun h => JVal.noConfusion h) (fun h => JVal.noConfusion h) rfl⟩

/-! ### Gradient stop order (C4) -/

/-- Value of a list of decimal digits, most significant first. -/
def decDigitsVal (ds : List ℕ) : ℕ := ds.foldl (fun a d => 10 * a + d) 0

/-- Numeric value of an emitted percentage string such as "12.9%": integer
digits, an optional decimal fraction, then the percent sign. -/
def parsePercentQ (str : String) : Option ℚ :=
  let ds := str.data.takeWhile isDigitChar
  let rest := str.data.drop ds.length
  if ds.isEmpty then none else
  match rest with
  | ['%'] => some (mkRat (digitsVal ds) 1)
  | '.' :: rest2 =>
    let fs := rest2.takeWhile isDigitChar
    if fs.isEmpty then none
    else if rest2.drop fs.length = ['%'] then
      some (qadd (mkRat (digitsVal ds) 1) (mkRat (digitsVal fs) (10 ^ fs.length)))
    else none
  | _ => none

/-- The sort key `parseInt(stop.pos)` that `stopCmp` actually compares
(0 when the position does not parse). -/
def stopKey (s : GradStop) : ℕ := (jsParseInt s.pos).getD 0

/-- A gradient-stop node whose `pos` attribute is a non-empty string of
decimal digits, as every well-formed DrawingML stop carries. -/
def hasDigitPos (gs : JVal) : Bool :=
  match getTextByPathList gs ["attrs", "pos"] with
  | .s str => !str.data.isEmpty && str.data.all isDigitChar
  | _ => false

/-- Background-properties node with two gradient stops at positions 12900
and 12500 — the percentages 12.9% and 12.5%. -/
def c4BgPr : JVal := .o [
  ("a:gradFill", .o [
    ("a:gsLst", .o [
      ("a:gs", .a [
        .o [("attrs", .o [("pos", .s "12900")]),
            ("a:srgbClr", .o [("attrs", .o [("val", .s "AAAAAA")])])],
        .o [("attrs", .o [("pos", .s "12500")]),
            ("a:srgbClr", .o [("attrs", .o [("val", .s "BBBBBB")])])]])])])]

theorem decRepAux_lt_ten : ∀ f n d, d ∈ decRepAux f n → d < 10 := by
  intro f
  induction f with
  | zero => intro n d h; simp [decRepAux] at h
  | succ f ih =>
    intro n d h
    rw [decRepAux] at h
    by_cases h10 : n < 10
    · rw [if_pos h10] at h
      simp at h
      omega
    · rw [if_neg h10] at h
      rcases List.mem_append.mp h with h1 | h1
      · exact ih _ _ h1
      · simp at h1
        omega

theorem decRepAux_ne_nil : ∀ f n, 0 < f → decRepAux f n ≠ [] := by
  intro f n hf
  cases f with
  | zero => omega
  | succ f =>
    rw [decRepAux]
    by_cases h10 : n < 10
    · rw [if_pos h10]; simp
    · rw [if_neg h10]; simp

theorem decDigitsVal_append_single (l : List ℕ) (d : ℕ) :
    decDigitsVal (l ++ [d]) = 10 * decDigitsVal l + d := by
  unfold decDigitsVal
  rw [List.foldl_append]
  rfl

theorem decRepAux_val : ∀ f n, n < f → decDigitsVal (decRepAux f n) = n := by
  intro f
  induction f with
  | zero => intro n h; omega
  | succ f ih =>
    intro n h
    rw [decRepAux]
    by_cases h10 : n < 10
    · rw [if_pos h10]
      simp [decDigitsVal]
    · rw [if_neg h10]
      rw [decDigitsVal_append_single, ih (n / 10) (by omega)]
      omega

theorem digitChar_toNat {d : ℕ} (h : d < 10) : (digitChar d).toNat = 48 + d := by
  interval_cases d <;> rfl

theorem isDigitChar_digitChar {d : ℕ} (h : d < 10) :
    isDigitChar (digitChar d) = true := by
  unfold isDigitChar
  rw [digitChar_toNat h]
  simp only [Bool.and_eq_true, decide_eq_true_eq]
  omega

theorem digitsVal_map_digitChar_aux (ds : List ℕ) :
    ∀ a, (∀ d ∈ ds, d < 10) →
      List.foldl (fun acc c => 10 * acc + (c.toNat - 48)) a (ds.map digitChar) =
      List.foldl (fun acc d => 10 * acc + d) a ds := by
  induction ds with
  | nil => intro a _; rfl
  | cons d t ih =>
    intro a h
    have hd : d < 10 := h d (List.mem_cons_self d t)
    simp only [List.map_cons, List.foldl_cons]
    rw [digitChar_toNat hd]
    have h48 : 48 + d - 48 = d := by omega
    rw [h48]
    exact ih _ (fun x hx => h x (List.mem_cons_of_mem d hx))

theorem digitsVal_map_digitChar (ds : List ℕ) (h : ∀ d ∈ ds, d < 10) :
    digitsVal (ds.map digitChar) = decDigitsVal ds :=
  digitsVal_map_digitChar_aux ds 0 h

theorem takeWhile_append_not (p : Char → Bool) :
    ∀ (l1 l2 : List Char), (∀ c ∈ l1, p c = true) →
      (∀ c ∈ l2.take 1, p c = false) →
      (l1 ++ l2).takeWhile p = l1 := by
  intro l1
  induction l1 with
  | nil =>
    intro l2 _ h2
    cases l2 with
    | nil => rfl
    | cons c t =>
      rw [List.nil_append, List.takeWhile_cons, h2 c (by simp)]
      simp
  | cons a t ih =>
    intro l2 h1 h2
    rw [List.cons_append, List.takeWhile_cons, h1 a (List.mem_cons_self a t)]
    simp only [if_true]
    rw [ih l2 (fun c hc => h1 c (List.mem_cons_of_mem a hc)) h2]

theorem jsParseInt_digits_append (ds suffix : List Char)
    (hd : ∀ c ∈ ds, isDigitChar c = true) (hne : ds ≠ [])
    (hsuf : ∀ c ∈ suffix.take 1, isDigitChar c = false) :
    jsParseInt ⟨ds ++ suffix⟩ = some (digitsVal ds) := by
  unfold jsParseInt
  show (if (List.takeWhile isDigitChar (ds ++ suffix)).isEmpty then none
        else some (digitsVal (List.takeWhile isDigitChar (ds ++ suffix)))) =
      some (digitsVal ds)
  rw [takeWhile_append_not isDigitChar ds suffix hd hsuf]
  cases ds with
  | nil => exact absurd rfl hne
  | cons a t => rfl

theorem jsParseInt_posNumberString (n : ℕ) :
    jsParseInt (posNumberString n ++ "%") = some (n / 1000) := by
  have hd : ∀ c ∈ (decRepAux (n / 1000 + 1) (n / 1000)).map digitChar,
      isDigitChar c = true := by
    intro c hc
    rcases List.mem_map.mp hc with ⟨d, hdm, rfl⟩
    exact isDigitChar_digitChar (decRepAux_lt_ten _ _ d hdm)
  have hne : (decRepAux (n / 1000 + 1) (n / 1000)).map digitChar ≠ [] := by
    rcases List.exists_cons_of_ne_nil
      (decRepAux_ne_nil (n / 1000 + 1) (n / 1000) (Nat.succ_pos _)) with ⟨a, t, he⟩
    rw [he]
    simp
  have hval : digitsVal ((decRepAux (n / 1000 + 1) (n / 1000)).map digitChar) = n / 1000 := by
    rw [digitsVal_map_digitChar _ (fun d hd0 => decRepAux_lt_ten _ _ d hd0)]
    exact decRepAux_val _ _ (Nat.lt_succ_self _)
  by_cases h0 : n % 1000 = 0
  · have heq : posNumberString n ++ "%" =
        ⟨(decRepAux (n / 1000 + 1) (n / 1000)).map digitChar ++ ['%']⟩ := by
      unfold posNumberString
      rw [if_pos h0]
      rfl
    rw [heq, jsParseInt_digits_append _ _ hd hne
      (by intro c hc; simp at hc; subst hc; rfl), hval]
  · have heq : posNumberString n ++ "%" =
        ⟨(decRepAux (n / 1000 + 1) (n / 1000)).map digitChar ++
          ('.' :: ((fracDigits (n % 1000)).map digitChar ++ ['%']))⟩ := by
      unfold posNumberString
      rw [if_neg h0]
      show String.mk ((((decRepAux (n / 1000 + 1) (n / 1000)).map digitChar ++ ['.']) ++
          (fracDigits (n % 1000)).map digitChar) ++ ['%']) = _
      rw [List.append_assoc, List.append_assoc]
      rfl
    rw [heq, jsParseInt_digits_append _ _ hd hne
      (by intro c hc; simp at hc; subst hc; rfl), hval]

theorem jtruthy_s_of_data_ne_nil {str : String} (h : str.data ≠ []) :
    jtruthy (.s str) = true := by
  cases str with
  | mk data =>
    cases data with
    | nil => exact absurd rfl h
    | cons c t => rfl

theorem gradStopOf_pos_parses (m : JVal) (p : Option String) (w : Warp) (gs : JVal)
    (h : hasDigitPos gs = true) :
    (jsParseInt (gradStopOf m p w gs).pos).isSome = true := by
  unfold hasDigitPos at h
  simp only [gradStopOf]
  cases hp : getTextByPathList gs ["attrs", "pos"] with
  | undef => rw [hp] at h; exact absurd h (by simp)
  | o fields => rw [hp] at h; exact absurd h (by simp)
  | a items => rw [hp] at h; exact absurd h (by simp)
  | s str =>
    rw [hp] at h
    simp only [Bool.and_eq_true, Bool.not_eq_true'] at h
    obtain ⟨hne0, hall⟩ := h
    have hne : str.data ≠ [] := by
      intro hnil
      rw [hnil] at hne0
      simp at hne0
    rw [jtruthy_s_of_data_ne_nil hne, if_pos rfl]
    have hnum : jsToNumberNat str = some (if str = "" then 0 else digitsVal str.data) := by
      unfold jsToNumberNat
      by_cases he : str = ""
      · rw [if_pos he, if_pos he]
      · rw [if_neg he, if_neg he, if_pos hall]
    show (jsParseInt (match jsToNumberNat str with
      | some n => posNumberString n ++ "%"
      | none => "NaN%")).isSome = true
    rw [hnum]
    show (jsParseInt (posNumberString (if str = "" then 0 else digitsVal str.data)
      ++ "%")).isSome = true
    rw [jsParseInt_posNumberString]
    rfl

theorem stopCmp_le_iff (a b : GradStop)
    (ha : (jsParseInt a.pos).isSome = true) (hb : (jsParseInt b.pos).isSome = true) :
    stopCmp a b ≤ 0 ↔ stopKey a ≤ stopKey b := by
  rcases Option.isSome_iff_exists.mp ha with ⟨m, hm⟩
  rcases Option.isSome_iff_exists.mp hb with ⟨n, hn⟩
  unfold stopCmp stopKey
  rw [hm, hn]
  simp only [Option.getD_some]
  constructor
  · intro hle; omega
  · intro hle; omega

theorem orderedInsert_key_sorted (a : GradStop) (ha : (jsParseInt a.pos).isSome = true) :
    ∀ m : List GradStop, (∀ s ∈ m, (jsParseInt s.pos).isSome = true) →
      m.Pairwise (fun x y => stopKey x ≤ stopKey y) →
      (List.orderedInsert (fun x y => stopCmp x y ≤ 0) a m).Pairwise
        (fun x y => stopKey x ≤ stopKey y) := by
  intro m
  induction m with
  | nil => intro _ _; simp [List.orderedInsert]
  | cons b t ih =>
    intro hall hsorted
    rw [List.orderedInsert]
    obtain ⟨hbt, hts⟩ := List.pairwise_cons.mp hsorted
    have hbparse := hall b (List.mem_cons_self b t)
    by_cases hr : stopCmp a b ≤ 0
    · rw [if_pos hr]
      refine List.pairwise_cons.mpr ⟨?_, hsorted⟩
      intro y hy
      have hab : stopKey a ≤ stopKey b := (stopCmp_le_iff a b ha hbparse).mp hr
      rcases List.mem_cons.mp hy with rfl | hyt
      · exact hab
      · exact le_trans hab (hbt y hyt)
    · rw [if_neg hr]
      refine List.pairwise_cons.mpr
        ⟨?_, ih (fun s hs => hall s (List.mem_cons_of_mem b hs)) hts⟩
      intro y hy
      rcases (List.mem_orderedInsert _).mp hy with hya | hyt
      · have hba : ¬ stopKey a ≤ stopKey b :=
          fun hle => hr ((stopCmp_le_iff a b ha hbparse).mpr hle)
        rw [hya]
        omega
      · exact hbt y hyt

theorem jsSortStops_pairwise (l : List GradStop) :
    (∀ s ∈ l, (jsParseInt s.pos).isSome = true) →
    (jsSortStops l).Pairwise (fun x y => stopKey x ≤ stopKey y) := by
  induction l with
  | nil => intro _; simp [jsSortStops, List.insertionSort]
  | cons a t ih =>
    intro h
    show (List.orderedInsert (fun x y => stopCmp x y ≤ 0) a
        (List.insertionSort (fun x y => stopCmp x y ≤ 0) t)).Pairwise
        (fun x y => stopKey x ≤ stopKey y)
    refine orderedInsert_key_sorted a (h a (List.mem_cons_self a t))
      (List.insertionSort (fun x y => stopCmp x y ≤ 0) t) ?_ ?_
    · intro s hs
      refine h s (List.mem_cons_of_mem a ?_)
      exact (List.perm_insertionSort (fun x y => stopCmp x y ≤ 0) t).mem_iff.mp hs
    · exact ih (fun s hs => h s (List.mem_cons_of_mem a hs))

theorem getBgGradientFill_grd (bgPr : JVal) (phClr : Option String)
    (master : JVal) (warpObj : Warp) (hb : jtruthy bgPr = true) :
    getBgGradientFill bgPr phClr master warpObj =
      .grd ⟨(if jtruthy (jget (jget bgPr "a:gradFill") "a:lin") then
               angleToDegrees (getTextByPathList (jget (jget bgPr "a:gradFill") "a:lin")
                 ["attrs", "ang"]) + 90
             else 90),
            jsSortStops ((gsItemsOf bgPr).map (gradStopOf master phClr warpObj))⟩ := by
  unfold getBgGradientFill
  rw [hb]
  rfl

/-- C4 counterexample: a gradient whose stops sit at 12.9% and 12.5% is
emitted with those positions in that order — descending numerically — because
the comparator compares `parseInt` of the rendered strings, which truncates
both to 12 and so never reorders them.  The colors array is therefore not
sorted ascending by numeric stop position. -/
theorem c4_counterexample :
    getBgGradientFill c4BgPr none c2MasterGreen emptyWarp =
      .grd ⟨90, [⟨"12.9%", .s "#AAAAAA"⟩, ⟨"12.5%", .s "#BBBBBB"⟩]⟩ ∧
    parsePercentQ "12.9%" = some (mkRat 129 10) ∧
    parsePercentQ "12.5%" = some (mkRat 125 10) ∧
    ¬ ((mkRat 129 10 : ℚ) ≤ mkRat 125 10) :=
  ⟨rfl, rfl, rfl, by decide⟩

/-- C4 amended: when every gradient stop carries a non-empty all-digit `pos`
attribute, the colors array getBgGradientFill emits is sorted ascending by
the comparator's own key `parseInt(stop.pos)` — the integer part of the
rendered percentage.  Ascending order by the full numeric position can still
fail on fractional percentages, and stops without a `pos` leave the
comparator inconsistent, so the sharper claim is false. -/
theorem c4_amended_sorted_by_parse_key (bgPr : JVal) (phClr : Option String)
    (master : JVal) (warpObj : Warp)
    (hb : jtruthy bgPr = true)
    (hpos : ∀ gs ∈ gsItemsOf bgPr, hasDigitPos gs = true) :
    ∃ g : GradientRec,
      getBgGradientFill bgPr phClr master warpObj = .grd g ∧
      g.colors.Pairwise (fun x y => stopKey x ≤ stopKey y) := by
  refine ⟨_, getBgGradientFill_grd bgPr phClr master warpObj hb, ?_⟩
  refine jsSortStops_pairwise _ ?_
  intro s hs
  rcases List.mem_map.mp hs with ⟨gs, hgs, rfl⟩
  exact gradStopOf_pos_parses master phClr warpObj gs (hpos gs hgs)

/-- Closed instance of the C4 amended theorem on the 12900/12500 gradient:
both hypotheses hold and the emitted stops are sorted by the parseInt key. -/
theorem c4_amended_witness :
    jtruthy c4BgPr = true ∧
    (∀ gs ∈ gsItemsOf c4BgPr, hasDigitPos gs = true) ∧
    ∃ g : GradientRec,
      getBgGradientFill c4BgPr none c2MasterGreen emptyWarp = .grd g ∧
      g.colors.Pairwise (fun x y => stopKey x ≤ stopKey y) := by
  have hpos : ∀ gs ∈ gsItemsOf c4BgPr, hasDigitPos gs = true := by decide
  exact ⟨rfl, hpos,
    c4_amended_sorted_by_parse_key c4BgPr none c2MasterGreen emptyWarp rfl hpos⟩

/-! ### Document order of slide elements (C1) -/

/-- A `p:pic` child whose `rId1` image relationship resolves into the
archive. -/
def c1PicNode : JVal := .o [
  ("p:blipFill", .o [("a:blip", .o [("attrs", .o [("r:embed", .s "rId1")])])]),
  ("p:spPr", .o [("a:xfrm", .o [
    ("a:off", .o [("attrs", .o [("x", .s "0"), ("y", .s "0")])]),
    ("a:ext", .o [("attrs", .o [("cx", .s "1270000"), ("cy", .s "1270000")])])])])]

/-- Slide resources for `c1PicNode`: the relationship table and a three-byte
image in the archive. -/
def c1Warp : Warp :=
  { emptyWarp with
    slideResObj := .o [("rId1", .o [("target", .s "media/image1.png")])],
    zip := [("media/image1.png", [77, 97, 110])] }

/-- Shape-tree children interleaving two `p:sp` around a `p:pic`. -/
def c1Children : List (String × JVal) :=
  [("p:sp", rectSpNode), ("p:pic", c1PicNode), ("p:sp", greenChildNode)]

/-- The same three children with equal tags contiguous. -/
def c1RunChildren : List (String × JVal) :=
  [("p:sp", rectSpNode), ("p:sp", greenChildNode), ("p:pic", c1PicNode)]

/-- Child sequences whose equal tags are contiguous: a non-empty run of one
tag followed by a sequence that never uses that tag again. -/
inductive TagRuns : List (String × JVal) → Prop
  | nil : TagRuns []
  | run (k : String) (ns : List JVal) (rest : List (String × JVal)) :
      ns ≠ [] → (∀ p ∈ rest, p.1 ≠ k) → TagRuns rest →
      TagRuns (ns.map (fun n => (k, n)) ++ rest)

theorem addToGroup_cons_ne (k : String) (ns : List JVal)
    (acc : List (String × List JVal)) (q : String) (v : JVal) (h : k ≠ q) :
    addToGroup ((k, ns) :: acc) q v = (k, ns) :: addToGroup acc q v := by
  simp only [addToGroup]
  rw [if_neg h]

theorem foldl_addToGroup_cons_notin (k : String) (ns : List JVal) :
    ∀ (rest : List (String × JVal)) (acc : List (String × List JVal)),
      (∀ p ∈ rest, p.1 ≠ k) →
      List.foldl (fun acc p => addToGroup acc p.1 p.2) ((k, ns) :: acc) rest =
        (k, ns) :: List.foldl (fun acc p => addToGroup acc p.1 p.2) acc rest := by
  intro rest
  induction rest with
  | nil => intro acc _; rfl
  | cons q t ih =>
    intro acc h
    obtain ⟨q1, v⟩ := q
    have hk : k ≠ q1 := fun he => h (q1, v) (List.mem_cons_self _ _) he.symm
    simp only [List.foldl_cons]
    rw [addToGroup_cons_ne k ns acc q1 v hk]
    exact ih (addToGroup acc q1 v) (fun p hp => h p (List.mem_cons_of_mem _ hp))

theorem foldl_addToGroup_run (k : String) :
    ∀ (ns cur : List JVal),
      List.foldl (fun acc p => addToGroup acc p.1 p.2) [(k, cur)]
        (ns.map (fun n => (k, n))) = [(k, cur ++ ns)] := by
  intro ns
  induction ns with
  | nil => intro cur; simp
  | cons n t ih =>
    intro cur
    simp only [List.map_cons, List.foldl_cons]
    have h1 : addToGroup [(k, cur)] k n = [(k, cur ++ [n])] := by
      simp [addToGroup]
    rw [h1, ih (cur ++ [n])]
    simp

theorem groupByTag_run (k : String) (ns : List JVal) (rest : List (String × JVal))
    (hne : ns ≠ []) (hnk : ∀ p ∈ rest, p.1 ≠ k) :
    groupByTag (ns.map (fun n => (k, n)) ++ rest) = (k, ns) :: groupByTag rest := by
  rcases List.exists_cons_of_ne_nil hne with ⟨n1, ntl, rfl⟩
  unfold groupByTag
  rw [List.foldl_append]
  simp only [List.map_cons, List.foldl_cons]
  have h0 : addToGroup [] k n1 = [(k, [n1])] := rfl
  rw [h0, foldl_addToGroup_run k ntl [n1]]
  exact foldl_addToGroup_cons_notin k ([n1] ++ ntl) rest [] hnk

theorem except_bind_toList_append_assoc (H : Except JsError (Option Element))
    (P Q : Except JsError (List Element)) :
    (do
      let r ← H
      let m ← (do
        let a ← P
        let b ← Q
        pure (a ++ b))
      pure (r.toList ++ m)) =
    (do
      let x ← (do
        let r ← H
        let a ← P
        pure (r.toList ++ a))
      let b ← Q
      pure (x ++ b)) := by
  cases H <;> cases P <;> cases Q <;>
    first
      | rfl
      | exact congrArg Except.ok (List.append_assoc _ _ _).symm

theorem processPairsCore_append
    (recurse : String → JVal → Except JsError (Option Element))
    (l1 l2 : List (String × JVal)) :
    processPairsCore recurse (l1 ++ l2) =
      (do
        let a ← processPairsCore recurse l1
        let b ← processPairsCore recurse l2
        pure (a ++ b)) := by
  induction l1 with
  | nil =>
    simp only [List.nil_append, processPairsCore]
    rw [show (Except.ok [] : Except JsError (List Element)) = pure [] from rfl]
    simp
  | cons hd tl ih =>
    obtain ⟨key, v⟩ := hd
    simp only [List.cons_append, processPairsCore]
    rw [List.append_eq, ih]
    exact except_bind_toList_append_assoc _ _ _

theorem processItemsCore_eq_pairs
    (recurse : String → JVal → Except JsError (Option Element)) (k : String) :
    ∀ ns : List JVal,
      processItemsCore recurse k ns =
        processPairsCore recurse (ns.map (fun n => (k, n))) := by
  intro ns
  induction ns with
  | nil => rfl
  | cons n t ih =>
    simp only [List.map_cons, processItemsCore, processPairsCore]
    rw [ih]

theorem map_toList_eq_pairs_single
    (recurse : String → JVal → Except JsError (Option Element))
    (k : String) (n : JVal) :
    Option.toList <$> recurse k n = processPairsCore recurse [(k, n)] := by
  cases h : recurse k n with
  | error e =>
    simp [processPairsCore, h, Functor.map, Except.map, Bind.bind, Except.bind]
  | ok v =>
    simp [processPairsCore, h, Functor.map, Except.map, Bind.bind, Except.bind,
      Pure.pure, Except.pure]

theorem processEntriesCore_run
    (recurse : String → JVal → Except JsError (Option Element))
    (k : String) (ns : List JVal) (tail : List (String × JVal))
    (hne : ns ≠ []) (hna : ∀ n ∈ ns, ∀ items, n ≠ JVal.a items) :
    processEntriesCore recurse ((k, collapseBucket ns) :: tail) =
      (do
        let a ← processPairsCore recurse (ns.map (fun n => (k, n)))
        let b ← processEntriesCore recurse tail
        pure (a ++ b)) := by
  cases ns with
  | nil => exact absurd rfl hne
  | cons n1 t1 =>
    cases t1 with
    | nil =>
      have hnan : ∀ items, n1 ≠ JVal.a items := hna n1 (by simp)
      cases n1 with
      | a items => exact absurd rfl (hnan items)
      | undef =>
        simp only [collapseBucket, processEntriesCore, List.map_cons, List.map_nil]
        rw [map_toList_eq_pairs_single]
      | s str =>
        simp only [collapseBucket, processEntriesCore, List.map_cons, List.map_nil]
        rw [map_toList_eq_pairs_single]
      | o fs =>
        simp only [collapseBucket, processEntriesCore, List.map_cons, List.map_nil]
        rw [map_toList_eq_pairs_single]
    | cons n2 t2 =>
      simp only [collapseBucket, processEntriesCore]
      rw [processItemsCore_eq_pairs]

theorem entriesCollapse_eq_pairs
    (recurse : String → JVal → Except JsError (Option Element)) :
    ∀ children : List (String × JVal), TagRuns children →
      (∀ p ∈ children, ∀ items, p.2 ≠ JVal.a items) →
      processEntriesCore recurse (jfields (xmlCollapse children)) =
        processPairsCore recurse children := by
  intro children hruns
  induction hruns with
  | nil => intro _; rfl
  | run k ns rest hne hnk hrest ih =>
    intro hna
    have hcollapse : jfields (xmlCollapse (ns.map (fun n => (k, n)) ++ rest)) =
        (k, collapseBucket ns) :: jfields (xmlCollapse rest) := by
      show ((groupByTag (ns.map (fun n => (k, n)) ++ rest)).map
          (fun p => (p.1, collapseBucket p.2))) =
        (k, collapseBucket ns) :: (groupByTag rest).map (fun p => (p.1, collapseBucket p.2))
      rw [groupByTag_run k ns rest hne hnk]
      rfl
    rw [hcollapse,
      processEntriesCore_run recurse k ns (jfields (xmlCollapse rest)) hne
        (fun n hn items =>
          hna (k, n) (List.mem_append_left _ (List.mem_map_of_mem _ hn)) items),
      ih (fun p hp => hna p (List.mem_append_right _ hp)),
      processPairsCore_append]

/-- C1 counterexample: with the children `p:sp`, `p:pic`, `p:sp`, the
`for (const nodeKey in nodes)` walk of processSingleSlide sees the collapsed
object `{p:sp: [·,·], p:pic: ·}` and emits both shapes before the image —
`["shape", "shape", "image"]` — whereas document order is
`["shape", "image", "shape"]`.  Interleaved tags are therefore reordered. -/
theorem c1_counterexample :
    (processSpTreeElements 2 (xmlCollapse c1Children) c1Warp).map
        (fun es => es.map (fun e => e.data.typ)) = .ok ["shape", "shape", "image"] ∧
    (processChildrenDocOrder 2 c1Children c1Warp).map
        (fun es => es.map (fun e => e.data.typ)) = .ok ["shape", "image", "shape"] ∧
    (["shape", "shape", "image"] : List String) ≠ ["shape", "image", "shape"] :=
  ⟨rfl, rfl, by decide⟩

/-- C1 amended: the element walk preserves document order exactly on shape
trees whose equal tags are contiguous (then the tag-collapse of the XML
reader is order-preserving, each bucket replaying its run in document
order); the children must be XML element nodes, not arrays. -/
theorem c1_amended_contiguous_tags_doc_order (fuel : ℕ)
    (children : List (String × JVal)) (warpObj : Warp)
    (hruns : TagRuns children)
    (hna : ∀ p ∈ children, ∀ items, p.2 ≠ JVal.a items) :
    processSpTreeElements fuel (xmlCollapse children) warpObj =
      processChildrenDocOrder fuel children warpObj :=
  entriesCollapse_eq_pairs _ children hruns hna

/-- Closed instance of the C1 amended theorem: the contiguous sequence
`p:sp`, `p:sp`, `p:pic` is emitted in document order. -/
theorem c1_amended_witness :
    TagRuns c1RunChildren ∧
    (∀ p ∈ c1RunChildren, ∀ items, p.2 ≠ JVal.a items) ∧
    processSpTreeElements 2 (xmlCollapse c1RunChildren) c1Warp =
      processChildrenDocOrder 2 c1RunChildren c1Warp := by
  have h2 : TagRuns [("p:pic", c1PicNode)] :=
    TagRuns.run "p:pic" [c1PicNode] [] (by simp) (by simp) TagRuns.nil
  have hruns : TagRuns c1RunChildren :=
    TagRuns.run "p:sp" [rectSpNode, greenChildNode] [("p:pic", c1PicNode)]
      (by simp) (by decide) h2
  have hna : ∀ p ∈ c1RunChildren, ∀ items, p.2 ≠ JVal.a items := by
    intro p hp items
    simp only [c1RunChildren, List.mem_cons, List.not_mem_nil, or_false] at hp
    rcases hp with rfl | rfl | rfl
    · exact fun h => JVal.noConfusion h
    · exact fun h => JVal.noConfusion h
    · exact fun h => JVal.noConfusion h
  exact ⟨hruns, hna,
    c1_amended_contiguous_tags_doc_order 2 c1RunChildren c1Warp hruns hna⟩

/-! ### base64ArrayBuffer against RFC 4648 (C10) -/

/-- RFC 4648 §4 base64, written arithmetically: each 3-byte group becomes the
four big-endian 6-bit groups of its 24-bit value; a 2-byte remainder yields
three characters (the last carrying the two low bits zero-padded) and `=`;
a 1-byte remainder yields two characters and `==`. -/
def rfc4648Encode : List (Fin 256) → String
  | x :: y :: z :: rest =>
    let n := x.val * 65536 + y.val * 256 + z.val
    ⟨[encChar (n / 262144), encChar (n / 4096 % 64),
      encChar (n / 64 % 64), encChar (n % 64)]⟩ ++ rfc4648Encode rest
  | [x, y] =>
    let n := x.val * 256 + y.val
    ⟨[encChar (n / 1024), encChar (n / 16 % 64), encChar (n % 16 * 4)]⟩ ++ "="
  | [x] =>
    ⟨[encChar (x.val / 4), encChar (x.val % 4 * 16)]⟩ ++ "=="
  | [] => ""

/-- Index of a base64 character in the alphabet. -/
def b64Index (c : Char) : ℕ := encodings.indexOf c

/-- RFC 4648 base64 decoding of a well-formed encoding, quad by quad, to the
byte values. -/
def rfc4648DecodeAux : List Char → List ℕ
  | c1 :: c2 :: c3 :: c4 :: rest =>
    if c3 = '=' then [b64Index c1 * 4 + b64Index c2 / 16]
    else if c4 = '=' then
      let n := b64Index c1 * 1024 + b64Index c2 * 16 + b64Index c3 / 4
      [n / 256, n % 256]
    else
      let n := b64Index c1 * 262144 + b64Index c2 * 4096 + b64Index c3 * 64 + b64Index c4
      n / 65536 :: n / 256 % 256 :: n % 256 :: rfc4648DecodeAux rest
  | _ => []

def rfc4648Decode (s : String) : List ℕ := rfc4648DecodeAux s.data

/-- Number of `=` padding characters RFC 4648 prescribes for a payload of
`m` bytes. -/
def padLen (m : ℕ) : ℕ :=
  match m % 3 with
  | 1 => 2
  | 2 => 1
  | _ => 0

/-- Structural induction scheme following base64ArrayBuffer's three-byte
consumption. -/
theorem threeStep {motive : List (Fin 256) → Prop}
    (h0 : motive []) (h1 : ∀ x, motive [x]) (h2 : ∀ x y, motive [x, y])
    (h3 : ∀ x y z rest, motive rest → motive (x :: y :: z :: rest)) :
    ∀ b, motive b := by
  have H : ∀ n b, List.length b ≤ n → motive b := by
    intro n
    induction n with
    | zero =>
      intro b hb
      cases b with
      | nil => exact h0
      | cons a t => simp at hb
    | succ n ih =>
      intro b hb
      match b with
      | [] => exact h0
      | [x] => exact h1 x
      | [x, y] => exact h2 x y
      | x :: y :: z :: rest =>
        refine h3 x y z rest (ih rest ?_)
        simp only [List.length_cons] at hb
        omega
  exact fun b => H b.length b le_rfl

theorem and_shiftLeft_shiftRight (m t s : ℕ) :
    (m &&& (t <<< s)) >>> s = (m >>> s) &&& t := by
  apply Nat.eq_of_testBit_eq
  intro i
  simp only [Nat.testBit_shiftRight, Nat.testBit_and, Nat.testBit_shiftLeft]
  have h1 : s + i ≥ s := Nat.le_add_right s i
  have h2 : s + i - s = i := by omega
  simp [h1, h2]

theorem mask_extract (m k s : ℕ) :
    (m &&& ((2 ^ k - 1) <<< s)) >>> s = m / 2 ^ s % 2 ^ k := by
  rw [and_shiftLeft_shiftRight, Nat.and_pow_two_sub_one_eq_mod,
    Nat.shiftRight_eq_div_pow]

theorem shiftLeft_or_eq_add (a b n : ℕ) (hb : b < 2 ^ n) :
    (a <<< n) ||| b = a * 2 ^ n + b := by
  rw [Nat.mul_comm a (2 ^ n)]
  apply Nat.eq_of_testBit_eq
  intro i
  rw [Nat.testBit_or, Nat.testBit_shiftLeft, Nat.testBit_mul_pow_two_add a hb i]
  by_cases hi : n ≤ i
  · have hb2 : b < 2 ^ i := lt_of_lt_of_le hb (Nat.pow_le_pow_right (by omega) hi)
    simp [hi, Nat.testBit_lt_two_pow hb2, Nat.not_lt.mpr hi]
  · simp [hi, Nat.lt_of_not_le hi]

theorem or_sh16_8 (x y z : ℕ) (hy : y < 256) (hz : z < 256) :
    (x <<< 16) ||| (y <<< 8) ||| z = x * 65536 + y * 256 + z := by
  rw [Nat.or_assoc, shiftLeft_or_eq_add y z 8 (by norm_num; omega),
    shiftLeft_or_eq_add x (y * 2 ^ 8 + z) 16 (by norm_num; omega)]
  norm_num
  omega

theorem or_sh8 (x y : ℕ) (hy : y < 256) :
    (x <<< 8) ||| y = x * 256 + y := by
  rw [shiftLeft_or_eq_add x y 8 (by norm_num; omega)]
  norm_num

theorem extract_18 (c : ℕ) : (c &&& 16515072) >>> 18 = c / 262144 % 64 := by
  have h : (16515072 : ℕ) = (2 ^ 6 - 1) <<< 18 := by norm_num [Nat.shiftLeft_eq]
  rw [h, mask_extract]
  try norm_num

theorem extract_12 (c : ℕ) : (c &&& 258048) >>> 12 = c / 4096 % 64 := by
  have h : (258048 : ℕ) = (2 ^ 6 - 1) <<< 12 := by norm_num [Nat.shiftLeft_eq]
  rw [h, mask_extract]
  try norm_num

theorem extract_6 (c : ℕ) : (c &&& 4032) >>> 6 = c / 64 % 64 := by
  have h : (4032 : ℕ) = (2 ^ 6 - 1) <<< 6 := by norm_num [Nat.shiftLeft_eq]
  rw [h, mask_extract]
  try norm_num

theorem and_63 (c : ℕ) : c &&& 63 = c % 64 := by
  have h : (63 : ℕ) = 2 ^ 6 - 1 := by norm_num
  rw [h, Nat.and_pow_two_sub_one_eq_mod]
  try norm_num

theorem extract_10 (c : ℕ) : (c &&& 64512) >>> 10 = c / 1024 % 64 := by
  have h : (64512 : ℕ) = (2 ^ 6 - 1) <<< 10 := by norm_num [Nat.shiftLeft_eq]
  rw [h, mask_extract]
  try norm_num

theorem extract_4 (c : ℕ) : (c &&& 1008) >>> 4 = c / 16 % 64 := by
  have h : (1008 : ℕ) = (2 ^ 6 - 1) <<< 4 := by norm_num [Nat.shiftLeft_eq]
  rw [h, mask_extract]
  try norm_num

theorem extract_252 (c : ℕ) : (c &&& 252) >>> 2 = c / 4 % 64 := by
  have h : (252 : ℕ) = (2 ^ 6 - 1) <<< 2 := by norm_num [Nat.shiftLeft_eq]
  rw [h, mask_extract]
  try norm_num

theorem and3_shl4 (c : ℕ) : (c &&& 3) <<< 4 = c % 4 * 16 := by
  have h : (3 : ℕ) = 2 ^ 2 - 1 := by norm_num
  rw [h, Nat.and_pow_two_sub_one_eq_mod, Nat.shiftLeft_eq]
  try norm_num

theorem and15_shl2 (c : ℕ) : (c &&& 15) <<< 2 = c % 16 * 4 := by
  have h : (15 : ℕ) = 2 ^ 4 - 1 := by norm_num
  rw [h, Nat.and_pow_two_sub_one_eq_mod, Nat.shiftLeft_eq]
  try norm_num

theorem base64_eq_rfc4648 : ∀ b, base64ArrayBuffer b = rfc4648Encode b := by
  refine threeStep rfl ?_ ?_ ?_
  · intro x
    have hx := x.isLt
    show (⟨[encChar ((x.val &&& 252) >>> 2), encChar ((x.val &&& 3) <<< 4)]⟩ : String)
        ++ "==" = _
    rw [extract_252, and3_shl4]
    have h4 : x.val / 4 % 64 = x.val / 4 := by omega
    rw [h4]
    rfl
  · intro x y
    have hx := x.isLt
    have hy := y.isLt
    show (⟨[encChar ((((x.val <<< 8) ||| y.val) &&& 64512) >>> 10),
            encChar ((((x.val <<< 8) ||| y.val) &&& 1008) >>> 4),
            encChar ((((x.val <<< 8) ||| y.val) &&& 15) <<< 2)]⟩ : String) ++ "=" = _
    rw [or_sh8 x.val y.val hy, extract_10, extract_4, and15_shl2]
    have h10 : (x.val * 256 + y.val) / 1024 % 64 = (x.val * 256 + y.val) / 1024 := by omega
    rw [h10]
    rfl
  · intro x y z rest ih
    have hx := x.isLt
    have hy := y.isLt
    have hz := z.isLt
    show (⟨[encChar ((((x.val <<< 16) ||| (y.val <<< 8) ||| z.val) &&& 16515072) >>> 18),
            encChar ((((x.val <<< 16) ||| (y.val <<< 8) ||| z.val) &&& 258048) >>> 12),
            encChar ((((x.val <<< 16) ||| (y.val <<< 8) ||| z.val) &&& 4032) >>> 6),
            encChar (((x.val <<< 16) ||| (y.val <<< 8) ||| z.val) &&& 63)]⟩ : String)
        ++ base64ArrayBuffer rest = _
    rw [or_sh16_8 x.val y.val z.val hy hz, extract_18, extract_12, extract_6, and_63, ih]
    have h18 : (x.val * 65536 + y.val * 256 + z.val) / 262144 % 64 =
        (x.val * 65536 + y.val * 256 + z.val) / 262144 := by omega
    rw [h18]
    rfl

theorem base64_length : ∀ b : List (Fin 256),
    (base64ArrayBuffer b).length = 4 * ((b.length + 2) / 3) := by
  refine threeStep rfl ?_ ?_ ?_
  · intro x
    have h : (base64ArrayBuffer [x]).length = 4 := rfl
    rw [h]
    norm_num
  · intro x y
    have h : (base64ArrayBuffer [x, y]).length = 4 := rfl
    rw [h]
    norm_num
  intro x y z rest ih
  have hstep : (base64ArrayBuffer (x :: y :: z :: rest)).length =
      (base64ArrayBuffer rest).length + 4 := rfl
  rw [hstep, ih]
  simp only [List.length_cons]
  omega

theorem encChar_ne_eq (i : ℕ) : encChar i ≠ '=' := by
  have hgen : ∀ (l : List Char) (j : ℕ), (∀ c ∈ l, c ≠ '=') → l.getD j 'A' ≠ '=' := by
    intro l
    induction l with
    | nil =>
      intro j _
      show ('A' : Char) ≠ '='
      decide
    | cons c t ih =>
      intro j h
      cases j with
      | zero => exact h c (List.mem_cons_self c t)
      | succ j => exact ih j (fun x hx => h x (List.mem_cons_of_mem _ hx))
  exact hgen encodings i (by decide)

theorem base64_padding : ∀ b : List (Fin 256),
    ∃ t, (base64ArrayBuffer b).data = t ++ List.replicate (padLen b.length) '=' ∧
      '=' ∉ t := by
  refine threeStep ⟨[], rfl, by simp⟩ ?_ ?_ ?_
  · intro x
    refine ⟨[encChar ((x.val &&& 252) >>> 2), encChar ((x.val &&& 3) <<< 4)], rfl, ?_⟩
    intro h
    rcases List.mem_cons.mp h with h1 | h1
    · exact encChar_ne_eq _ h1.symm
    · rcases List.mem_cons.mp h1 with h2 | h2
      · exact encChar_ne_eq _ h2.symm
      · simp at h2
  · intro x y
    refine ⟨[encChar ((((x.val <<< 8) ||| y.val) &&& 64512) >>> 10),
             encChar ((((x.val <<< 8) ||| y.val) &&& 1008) >>> 4),
             encChar ((((x.val <<< 8) ||| y.val) &&& 15) <<< 2)], rfl, ?_⟩
    intro h
    rcases List.mem_cons.mp h with h1 | h1
    · exact encChar_ne_eq _ h1.symm
    · rcases List.mem_cons.mp h1 with h2 | h2
      · exact encChar_ne_eq _ h2.symm
      · rcases List.mem_cons.mp h2 with h3 | h3
        · exact encChar_ne_eq _ h3.symm
        · simp at h3
  · intro x y z rest ih
    obtain ⟨t, ht, hnt⟩ := ih
    have hmod : padLen (x :: y :: z :: rest).length = padLen rest.length := by
      unfold padLen
      simp only [List.length_cons]
      have h3 : (rest.length + 1 + 1 + 1) % 3 = rest.length % 3 := by omega
      rw [h3]
    refine ⟨[encChar ((((x.val <<< 16) ||| (y.val <<< 8) ||| z.val) &&& 16515072) >>> 18),
             encChar ((((x.val <<< 16) ||| (y.val <<< 8) ||| z.val) &&& 258048) >>> 12),
             encChar ((((x.val <<< 16) ||| (y.val <<< 8) ||| z.val) &&& 4032) >>> 6),
             encChar (((x.val <<< 16) ||| (y.val <<< 8) ||| z.val) &&& 63)] ++ t, ?_, ?_⟩
    · show [encChar _, encChar _, encChar _, encChar _] ++ (base64ArrayBuffer rest).data =
        _ ++ List.replicate (padLen (x :: y :: z :: rest).length) '='
      rw [ht, hmod, List.append_assoc]
    · intro h
      rcases List.mem_append.mp h with h1 | h1
      · rcases List.mem_cons.mp h1 with h2 | h2
        · exact encChar_ne_eq _ h2.symm
        · rcases List.mem_cons.mp h2 with h3 | h3
          · exact encChar_ne_eq _ h3.symm
          · rcases List.mem_cons.mp h3 with h4 | h4
            · exact encChar_ne_eq _ h4.symm
            · rcases List.mem_cons.mp h4 with h5 | h5
              · exact encChar_ne_eq _ h5.symm
              · simp at h5
      · exact hnt h1

theorem b64Index_encChar : ∀ i < 64, b64Index (encChar i) = i := by decide

theorem base64_decode_rfc : ∀ b : List (Fin 256),
    rfc4648DecodeAux (rfc4648Encode b).data = b.map Fin.val := by
  refine threeStep rfl ?_ ?_ ?_
  · intro x
    have hx := x.isLt
    show rfc4648DecodeAux
        [encChar (x.val / 4), encChar (x.val % 4 * 16), '=', '='] = [x.val]
    rw [rfc4648DecodeAux]
    rw [if_pos rfl]
    rw [b64Index_encChar _ (by omega), b64Index_encChar _ (by omega)]
    have : x.val / 4 * 4 + x.val % 4 * 16 / 16 = x.val := by omega
    rw [this]
  · intro x y
    have hx := x.isLt
    have hy := y.isLt
    show rfc4648DecodeAux
        [encChar ((x.val * 256 + y.val) / 1024),
         encChar ((x.val * 256 + y.val) / 16 % 64),
         encChar ((x.val * 256 + y.val) % 16 * 4), '='] = [x.val, y.val]
    rw [rfc4648DecodeAux]
    rw [if_neg (encChar_ne_eq _), if_pos rfl]
    rw [b64Index_encChar _ (by omega), b64Index_encChar _ (by omega),
      b64Index_encChar _ (by omega)]
    have h1 : (x.val * 256 + y.val) / 1024 * 1024 +
        (x.val * 256 + y.val) / 16 % 64 * 16 +
        (x.val * 256 + y.val) % 16 * 4 / 4 = x.val * 256 + y.val := by omega
    rw [h1]
    have h2 : (x.val * 256 + y.val) / 256 = x.val := by omega
    have h3 : (x.val * 256 + y.val) % 256 = y.val := by omega
    show [(x.val * 256 + y.val) / 256, (x.val * 256 + y.val) % 256] = [x.val, y.val]
    rw [h2, h3]
  · intro x y z rest ih
    have hx := x.isLt
    have hy := y.isLt
    have hz := z.isLt
    show rfc4648DecodeAux
        (encChar ((x.val * 65536 + y.val * 256 + z.val) / 262144) ::
         encChar ((x.val * 65536 + y.val * 256 + z.val) / 4096 % 64) ::
         encChar ((x.val * 65536 + y.val * 256 + z.val) / 64 % 64) ::
         encChar ((x.val * 65536 + y.val * 256 + z.val) % 64) ::
         (rfc4648Encode rest).data) =
      x.val :: y.val :: z.val :: rest.map Fin.val
    rw [rfc4648DecodeAux]
    rw [if_neg (encChar_ne_eq _), if_neg (encChar_ne_eq _)]
    rw [b64Index_encChar _ (by omega), b64Index_encChar _ (by omega),
      b64Index_encChar _ (by omega), b64Index_encChar _ (by omega)]
    have h1 : (x.val * 65536 + y.val * 256 + z.val) / 262144 * 262144 +
        (x.val * 65536 + y.val * 256 + z.val) / 4096 % 64 * 4096 +
        (x.val * 65536 + y.val * 256 + z.val) / 64 % 64 * 64 +
        (x.val * 65536 + y.val * 256 + z.val) % 64 =
        x.val * 65536 + y.val * 256 + z.val := by omega
    rw [h1]
    have h2 : (x.val * 65536 + y.val * 256 + z.val) / 65536 = x.val := by omega
    have h3 : (x.val * 65536 + y.val * 256 + z.val) / 256 % 256 = y.val := by omega
    have h4 : (x.val * 65536 + y.val * 256 + z.val) % 256 = z.val := by omega
    show (x.val * 65536 + y.val * 256 + z.val) / 65536 ::
        (x.val * 65536 + y.val * 256 + z.val) / 256 % 256 ::
        (x.val * 65536 + y.val * 256 + z.val) % 256 ::
        rfc4648DecodeAux (rfc4648Encode rest).data =
      x.val :: y.val :: z.val :: rest.map Fin.val
    rw [h2, h3, h4, ih]

/-- C10: base64ArrayBuffer is exactly RFC 4648 base64: it agrees with the
arithmetic big-endian-sextet encoder, its output length is 4·⌈|b|/3⌉, the
output is a padding-free prefix followed by exactly the prescribed `=`
padding (two for a 1-byte remainder, one for a 2-byte remainder, none
otherwise), and RFC 4648 decoding recovers the input bytes. -/
theorem c10_base64_rfc4648 (b : List (Fin 256)) :
    base64ArrayBuffer b = rfc4648Encode b ∧
    (base64ArrayBuffer b).length = 4 * ((b.length + 2) / 3) ∧
    (∃ t, (base64ArrayBuffer b).data = t ++ List.replicate (padLen b.length) '=' ∧
      '=' ∉ t) ∧
    rfc4648Decode (base64ArrayBuffer b) = b.map Fin.val := by
  refine ⟨base64_eq_rfc4648 b, base64_length b, base64_padding b, ?_⟩
  rw [base64_eq_rfc4648 b]
  exact base64_decode_rfc b

end Pptx
